import Mathlib

/-!
Verification of the technical/fundamental scoring and signal-detection engine
of the stock-analysis repository (src/analyzers/technical.py, screener.py,
market_sentiment.py, trend.py).

Modelling conventions (shallow embedding):
* Prices and scores are exact rationals (`ℚ`); the original operates on IEEE
  doubles, whose rounding plays no role in any property checked here.
* A pandas Series aligned to a frame of length n is a `List (Option ℚ)` of
  length n; `none` models NaN ("undefined").  Each rolling/ewm construct is
  written as `(List.range n).map f` with `f` giving the value at one index,
  which matches pandas's index alignment.
* Python `float` square root is not rational, so every definition that needs
  the rolling standard deviation takes the square-root function `s : ℚ → ℚ`
  as a parameter; `ratSqrt` below is a concrete instantiation used for
  closed-form evaluations (exact whenever the radicand is a perfect square,
  which is the case at every concrete input used in a proof).
* Fallible Python code (raising AnalysisError / TypeError / ZeroDivisionError)
  is modelled with `Except PyError`.  Comparisons against NaN follow Python /
  numpy semantics: they are `false`.
* Python `round(x, n)` (banker's rounding) is `pyRound`; Python `dict.get`
  with a default is `pyGet`; truthiness of an optional float (`None` and
  `0.0` are falsy) is `pyTruthy`.
-/

/-- Value of a pandas series at an index: `none` when the index is out of
range or the stored value is NaN. -/
def atIdx (t : List (Option ℚ)) (i : ℕ) : Option ℚ :=
  (t.get? i).join

/-- Round-half-to-even to an integer, as Python's builtin round does. -/
def roundHalfEven (x : ℚ) : ℤ :=
  let f := ⌊x⌋
  let r := x - f
  if r < 1/2 then f
  else if 1/2 < r then f + 1
  else if f % 2 = 0 then f else f + 1

/-- Python round(x, n): round to n decimal places, ties to even. -/
def pyRound (x : ℚ) (n : ℕ) : ℚ :=
  (roundHalfEven (x * 10 ^ n) : ℚ) / 10 ^ n

/-- Floor square root of a natural number (smallest-witness definition kept
kernel-friendly: no well-founded recursion). -/
def natSqrt (n : ℕ) : ℕ :=
  ((List.range (n + 1)).filter fun k => k * k ≤ n).length - 1

/-- A concrete rational stand-in for the float square root, exact on perfect
squares; definitions are parameterised over the square root and this is the
instantiation used for closed evaluations. -/
def ratSqrt (q : ℚ) : ℚ :=
  (natSqrt (q.num.toNat * q.den) : ℚ) / (q.den : ℚ)

/-- Python dict.get(key, default) over an association list. -/
def pyGet (d : List (String × Option ℚ)) (k : String) (dflt : Option ℚ) : Option ℚ :=
  (d.lookup k).getD dflt

/-- Python truthiness of an optional float: None and 0.0 are falsy. -/
def pyTruthy (o : Option ℚ) : Bool :=
  match o with
  | none => false
  | some q => q != 0

/-- Python / numpy comparison a < b where either side may be NaN (false then). -/
def pyLtB (a b : Option ℚ) : Bool :=
  match a, b with
  | some x, some y => decide (x < y)
  | _, _ => false

/-- Python / numpy comparison a > b where either side may be NaN (false then). -/
def pyGtB (a b : Option ℚ) : Bool :=
  match a, b with
  | some x, some y => decide (y < x)
  | _, _ => false

/-- Python / numpy equality a == b where either side may be NaN (false then,
NaN is not equal to anything). -/
def pyEqB (a b : Option ℚ) : Bool :=
  match a, b with
  | some x, some y => decide (x = y)
  | _, _ => false

/-!  ### Indicator library (technical.py, pure-pandas indicator functions)  -/

/-- Trailing window of the series ending at index i, of width len
(pandas: the values entering rolling(window=len) at row i). -/
def windowAt (xs : List ℚ) (len i : ℕ) : List ℚ :=
  (xs.take (i + 1)).drop (i + 1 - len)

/-- Embedding of _sma: series.rolling(window=length, min_periods=length).mean().
Defined at index i exactly when the full window fits, i.e. length ≤ i+1. -/
def smaList (xs : List ℚ) (len : ℕ) : List (Option ℚ) :=
  (List.range xs.length).map fun i =>
    if len ≤ i + 1 then some ((windowAt xs len i).sum / (len : ℚ)) else none

/-- Recursive step of ewm(..., adjust=False): y_i = α·x_i + (1−α)·y_{i−1}. -/
def ewmGo (α : ℚ) (prev : ℚ) : List ℚ → List ℚ
  | [] => []
  | y :: ys =>
    let v := α * y + (1 - α) * prev
    v :: ewmGo α v ys

/-- Embedding of series.ewm(..., adjust=False).mean() without min_periods
masking: first output equals the first input. -/
def ewmRaw (xs : List ℚ) (α : ℚ) : List ℚ :=
  match xs with
  | [] => []
  | x :: rest => x :: ewmGo α x rest

/-- Embedding of _ema: span-parameterised ewm, α = 2/(length+1), defined from
the first observation onward. -/
def emaList (xs : List ℚ) (len : ℕ) : List ℚ :=
  ewmRaw xs (2 / ((len : ℚ) + 1))

/-- Wilder smoothing with min_periods masking, as used by _rsi and _atr:
ewm(alpha=1/len, min_periods=len, adjust=False).mean() on an all-defined
input; output is NaN until len observations exist. -/
def wilderMasked (xs : List ℚ) (len : ℕ) : List (Option ℚ) :=
  (List.range xs.length).map fun i =>
    if len ≤ i + 1 then (ewmRaw xs (1 / (len : ℚ))).get? i else none

/-- Gains list of _rsi: delta = series.diff(); gain = delta.where(delta > 0, 0).
The first diff is NaN, and NaN > 0 is false, so index 0 gets 0.0. -/
def gains (xs : List ℚ) : List ℚ :=
  match xs with
  | [] => []
  | _ :: rest => 0 :: List.zipWith (fun prev cur => if 0 < cur - prev then cur - prev else 0) xs rest

/-- Losses list of _rsi: loss = -delta.where(delta < 0, 0). -/
def losses (xs : List ℚ) : List ℚ :=
  match xs with
  | [] => []
  | _ :: rest => 0 :: List.zipWith (fun prev cur => if cur - prev < 0 then -(cur - prev) else 0) xs rest

/-- Wilder-smoothed average gain of _rsi. -/
def avgGain (xs : List ℚ) (len : ℕ) : List (Option ℚ) :=
  wilderMasked (gains xs) len

/-- Wilder-smoothed average loss of _rsi. -/
def avgLoss (xs : List ℚ) (len : ℕ) : List (Option ℚ) :=
  wilderMasked (losses xs) len

/-- Embedding of _rsi: rs = avg_gain / avg_loss.replace(0, nan);
rsi = 100 − 100/(1+rs).  A zero average loss is replaced by NaN before the
division, so the ratio is undefined there rather than a crash; NaN
propagates through the arithmetic. -/
def rsiList (xs : List ℚ) (len : ℕ) : List (Option ℚ) :=
  (List.range xs.length).map fun i =>
    match atIdx (avgGain xs len) i, atIdx (avgLoss xs len) i with
    | some a, some b => if b = 0 then none else some (100 - 100 / (1 + a / b))
    | _, _ => none

/-- MACD line of _macd: EMA(fast) − EMA(slow). -/
def macdLine (xs : List ℚ) (fast slow : ℕ) : List ℚ :=
  List.zipWith (fun a b => a - b) (emaList xs fast) (emaList xs slow)

/-- Signal line of _macd: EMA of the MACD line. -/
def macdSignalLine (xs : List ℚ) (fast slow sig : ℕ) : List ℚ :=
  emaList (macdLine xs fast slow) sig

/-- Histogram of _macd: MACD line − signal line. -/
def macdHistogram (xs : List ℚ) (fast slow sig : ℕ) : List ℚ :=
  List.zipWith (fun a b => a - b) (macdLine xs fast slow) (macdSignalLine xs fast slow sig)

/-- Sample variance of the trailing window (the square of what pandas's
rolling .std(ddof=1) returns). -/
def rollingVarAt (xs : List ℚ) (len i : ℕ) : ℚ :=
  let w := windowAt xs len i
  let μ := w.sum / (len : ℚ)
  (w.map fun x => (x - μ) ^ 2).sum / ((len : ℚ) - 1)

/-- Embedding of series.rolling(window=len, min_periods=len).std(): defined
once the window fits and len ≥ 2 (ddof = 1 yields NaN on a single-element
window); the value is the square root (parameter s) of the sample variance. -/
def rollingStdList (s : ℚ → ℚ) (xs : List ℚ) (len : ℕ) : List (Option ℚ) :=
  (List.range xs.length).map fun i =>
    if len ≤ i + 1 ∧ 2 ≤ len then some (s (rollingVarAt xs len i)) else none

/-- Mid band of _bbands: the SMA. -/
def bbMidList (xs : List ℚ) (len : ℕ) : List (Option ℚ) :=
  smaList xs len

/-- Upper band of _bbands: mid + k·std (NaN whenever either input is NaN). -/
def bbUpperList (s : ℚ → ℚ) (xs : List ℚ) (len : ℕ) (k : ℚ) : List (Option ℚ) :=
  (List.range xs.length).map fun i =>
    match atIdx (smaList xs len) i, atIdx (rollingStdList s xs len) i with
    | some m, some sd => some (m + k * sd)
    | _, _ => none

/-- Lower band of _bbands: mid − k·std (NaN whenever either input is NaN). -/
def bbLowerList (s : ℚ → ℚ) (xs : List ℚ) (len : ℕ) (k : ℚ) : List (Option ℚ) :=
  (List.range xs.length).map fun i =>
    match atIdx (smaList xs len) i, atIdx (rollingStdList s xs len) i with
    | some m, some sd => some (m - k * sd)
    | _, _ => none


/-!  ### Technical Scorer (technical.py, TechnicalAnalyzer)  -/

/-- Python exceptions that the modelled code can raise. -/
inductive PyError where
  | analysisError (msg : String)
  | typeError (msg : String)
  | zeroDivisionError (msg : String)
deriving DecidableEq, Repr

/-- Signals appended by TechnicalAnalyzer._detect_signals, as structured
values (the source renders them as strings such as
"Golden cross (SMA5/SMA20)"; the numeric payload of the RSI signals is the
value interpolated into the string). -/
inductive Signal where
  | insufficientData
  | rsiOverbought (val : ℚ)
  | rsiOversold (val : ℚ)
  | macdBullish
  | macdBearish
  | goldenCross (short long : ℕ)
  | deathCross (short long : ℕ)
  | bbUpperBreakout
  | bbLowerBreakout
deriving DecidableEq, Repr

/-- TechnicalConfig (core/config.py): parameters of the technical analyzer. -/
structure TechnicalConfig where
  smaPeriods : List ℕ
  emaPeriods : List ℕ
  rsiPeriod : ℕ
  rsiOverbought : ℚ
  rsiOversold : ℚ
  macdFast : ℕ
  macdSlow : ℕ
  macdSig : ℕ
  bbPeriod : ℕ
  bbStd : ℚ
  goldenCrossPairs : List (ℕ × ℕ)

/-- Default TechnicalConfig values from core/config.py. -/
def defaultCfg : TechnicalConfig :=
  ⟨[5, 20, 60, 120], [12, 26], 14, 70, 30, 12, 26, 9, 20, 2, [(5, 20), (20, 60)]⟩

/-- Embedding of TechnicalAnalyzer._last_value: last non-NaN value of the
series rounded to 4 decimals, None when the series has no defined value. -/
def lastValue (t : List (Option ℚ)) : Option ℚ :=
  let valid := t.filterMap id
  if valid.isEmpty then none else some (pyRound (valid.getLastD 0) 4)

/-- Embedding of TechnicalAnalyzer._prev_sma_value: second-to-last valid SMA
observation, None when fewer than two exist. -/
def prevSma (xs : List ℚ) (period : ℕ) : Option ℚ :=
  let valid := (smaList xs period).filterMap id
  if 2 ≤ valid.length then valid.get? (valid.length - 2) else none

/-- Embedding of TechnicalAnalyzer._compute_indicators: each indicator series
reduced to its latest defined value, keyed as in the source dict. -/
def computeIndicators (s : ℚ → ℚ) (cfg : TechnicalConfig) (closes : List ℚ) :
    List (String × Option ℚ) :=
  (cfg.smaPeriods.map fun p => ("sma_" ++ toString p, lastValue (smaList closes p)))
  ++ (cfg.emaPeriods.map fun p => ("ema_" ++ toString p, lastValue ((emaList closes p).map some)))
  ++ [("rsi", lastValue (rsiList closes cfg.rsiPeriod)),
      ("macd", lastValue ((macdLine closes cfg.macdFast cfg.macdSlow).map some)),
      ("macd_histogram", lastValue ((macdHistogram closes cfg.macdFast cfg.macdSlow cfg.macdSig).map some)),
      ("macd_signal", lastValue ((macdSignalLine closes cfg.macdFast cfg.macdSlow cfg.macdSig).map some)),
      ("bb_lower", lastValue (bbLowerList s closes cfg.bbPeriod cfg.bbStd)),
      ("bb_mid", lastValue (bbMidList closes cfg.bbPeriod)),
      ("bb_upper", lastValue (bbUpperList s closes cfg.bbPeriod cfg.bbStd))]

/-- RSI block of _detect_signals: overbought / oversold extremes. -/
def rsiSignals (cfg : TechnicalConfig) (inds : List (String × Option ℚ)) : List Signal :=
  match pyGet inds "rsi" none with
  | some v =>
    if cfg.rsiOverbought ≤ v then [.rsiOverbought v]
    else if v ≤ cfg.rsiOversold then [.rsiOversold v]
    else []
  | none => []

/-- MACD block of _detect_signals: bullish / bearish cross state. -/
def macdSignals (inds : List (String × Option ℚ)) : List Signal :=
  match pyGet inds "macd" none, pyGet inds "macd_signal" none with
  | some m, some sg =>
    if sg < m then [.macdBullish]
    else if m < sg then [.macdBearish]
    else []
  | _, _ => []

/-- Golden/death-cross block of _detect_signals for one configured pair:
requires both current (dict) SMA values and both previous-bar SMA values;
a flip from short ≤ long to short > long is a golden cross, the reverse
flip a death cross. -/
def crossSignalsFor (closes : List ℚ) (inds : List (String × Option ℚ))
    (pr : ℕ × ℕ) : List Signal :=
  match pyGet inds ("sma_" ++ toString pr.1) none, pyGet inds ("sma_" ++ toString pr.2) none with
  | some cs, some cl =>
    match prevSma closes pr.1, prevSma closes pr.2 with
    | some ps, some pl =>
      if ps ≤ pl ∧ cl < cs then [.goldenCross pr.1 pr.2]
      else if pl ≤ ps ∧ cs < cl then [.deathCross pr.1 pr.2]
      else []
    | _, _ => []
  | _, _ => []

/-- All golden/death-cross signals, in configured pair order. -/
def crossSignals (cfg : TechnicalConfig) (closes : List ℚ)
    (inds : List (String × Option ℚ)) : List Signal :=
  cfg.goldenCrossPairs.foldr (fun pr acc => crossSignalsFor closes inds pr ++ acc) []

/-- Bollinger block of _detect_signals: close beyond the upper / lower band. -/
def bbSignals (closeLast : ℚ) (inds : List (String × Option ℚ)) : List Signal :=
  (match pyGet inds "bb_upper" none with
   | some u => if u < closeLast then [.bbUpperBreakout] else []
   | none => [])
  ++ (match pyGet inds "bb_lower" none with
      | some l => if closeLast < l then [.bbLowerBreakout] else []
      | none => [])

/-- Embedding of TechnicalAnalyzer._detect_signals: RSI, then MACD, then the
configured golden-cross pairs, then Bollinger breakouts. -/
def detectSignals (cfg : TechnicalConfig) (closeLast : ℚ) (closes : List ℚ)
    (inds : List (String × Option ℚ)) : List Signal :=
  rsiSignals cfg inds ++ macdSignals inds ++ crossSignals cfg closes inds
  ++ bbSignals closeLast inds

/-- Embedding of TechnicalAnalyzer._compute_score.  The source fetches
indicators.get("rsi", 50.0); the dict always carries the key, so a series
with no defined RSI stores None there and the comparison rsi <= 30 then
raises TypeError (None is not comparable with int) — modelled by the error
branch.  macd_histogram in contrast is explicitly replaced by 0.0 when None. -/
def computeScore (cfg : TechnicalConfig) (closeLast : ℚ)
    (inds : List (String × Option ℚ)) : Except PyError ℚ :=
  match pyGet inds "rsi" (some 50) with
  | none => .error (.typeError "unsupported comparison: NoneType and int")
  | some rsi =>
    let rsiScore : ℚ :=
      if rsi ≤ 30 then 25
      else if 70 ≤ rsi then 5
      else 25 - (rsi - 30) * (20 / 40)
    let mh := (pyGet inds "macd_histogram" (some 0)).getD 0
    let macdScore : ℚ :=
      if 0 < mh then min 25 (12.5 + mh * 50) else max 0 (12.5 + mh * 50)
    let maRaw := cfg.smaPeriods.foldl
      (fun acc p =>
        match pyGet inds ("sma_" ++ toString p) none with
        | some v => if 0 < v then (if 1 < closeLast / v then acc + 3 else acc - 3) else acc
        | none => acc)
      (12.5 : ℚ)
    let maScore := max 0 (min 25 maRaw)
    let bbU := pyGet inds "bb_upper" none
    let bbL := pyGet inds "bb_lower" none
    let bbScore : ℚ :=
      if pyTruthy bbU ∧ pyTruthy bbL ∧ pyGtB bbU bbL then
        match bbU, bbL with
        | some u, some l =>
          max 0 (min 25 ((1 - (closeLast - l) / (u - l)) * 20 + 2.5))
        | _, _ => 12.5
      else 12.5
    .ok (pyRound (max 0 (min 100 (rsiScore + macdScore + maScore + bbScore))) 1)

/-- Result of TechnicalAnalyzer.analyze (the raw debug payload of the source
dict is omitted; score, signals and indicators are the fields every caller
and every checked property uses). -/
structure TechResult where
  score : ℚ
  signals : List Signal
  indicators : List (String × Option ℚ)
deriving DecidableEq, Repr

/-- Embedding of TechnicalAnalyzer.analyze: raises AnalysisError on an empty
frame, reports insufficient_data with a neutral score below 30 bars, and
otherwise computes indicators, signals and the composite score. -/
def techAnalyze (s : ℚ → ℚ) (cfg : TechnicalConfig) (closes : List ℚ) :
    Except PyError TechResult :=
  if closes.isEmpty then .error (.analysisError "No OHLCV data")
  else if closes.length < 30 then .ok ⟨50, [.insufficientData], []⟩
  else
    let inds := computeIndicators s cfg closes
    let closeLast := closes.getLastD 0
    let sigs := detectSignals cfg closeLast closes inds
    match computeScore cfg closeLast inds with
    | .ok sc => .ok ⟨sc, sigs, inds⟩
    | .error e => .error e

/-!  ### Composite Screener (screener.py, StockScreener)  -/

/-- Result of FundamentalAnalyzer.analyze as the screener consumes it
(score plus the metric map; the analyzer itself wraps an external
fundamentals fetch and is treated as an opaque producer of this value). -/
structure FundResult where
  score : ℚ
  data : List (String × ℚ)
deriving DecidableEq, Repr

/-- Result of StockScreener.analyze. -/
structure ScreenResult where
  score : ℚ
  technicalScore : ℚ
  fundamentalScore : ℚ
  signals : List Signal
  recommendation : String
  technicalIndicators : List (String × Option ℚ)
  fundamentalData : List (String × ℚ)
deriving DecidableEq, Repr

/-- Embedding of StockScreener._safe_technical: any exception from the
technical analyzer is swallowed and replaced by the neutral result
score 50 / no signals / no indicators.  (The source short-circuits a
missing or empty frame to the same neutral dict before calling analyze;
analyze raises AnalysisError on exactly those frames, so the catch-all
yields the identical value.) -/
def safeTechnicalR (r : Except PyError TechResult) : TechResult :=
  match r with
  | .ok v => v
  | .error _ => ⟨50, [], []⟩

/-- Embedding of StockScreener._safe_fundamental: any exception is swallowed
and replaced by score 50 with empty data. -/
def safeFundamental (r : Except PyError FundResult) : FundResult :=
  match r with
  | .ok v => v
  | .error _ => ⟨50, []⟩

/-- Embedding of StockScreener._classify_recommendation. -/
def classifyRecommendation (score : ℚ) : String :=
  if 80 ≤ score then "strong_positive"
  else if 60 ≤ score then "positive"
  else if 40 ≤ score then "neutral"
  else "negative"

/-- Embedding of the body of StockScreener.analyze, given the two sub-scorer
outcomes: composite = round(clamp(0, 100, tech·w_tech + fund·w_fund), 1)
with weights looked up under defaults 0.5, then classified. -/
def screenerAnalyzeCore (tr : Except PyError TechResult)
    (fr : Except PyError FundResult) (weights : List (String × ℚ)) : ScreenResult :=
  let t := safeTechnicalR tr
  let f := safeFundamental fr
  let wTech := (weights.lookup "technical").getD (1/2)
  let wFund := (weights.lookup "fundamental").getD (1/2)
  let composite := pyRound (max 0 (min 100 (t.score * wTech + f.score * wFund))) 1
  ⟨composite, t.score, f.score, t.signals, classifyRecommendation composite,
   t.indicators, f.data⟩

/-- Embedding of StockScreener.analyze on a price series: run the technical
analyzer guarded by _safe_technical, combine with the fundamental outcome. -/
def screenerAnalyze (s : ℚ → ℚ) (closes : List ℚ)
    (fr : Except PyError FundResult) (weights : List (String × ℚ)) : ScreenResult :=
  screenerAnalyzeCore (techAnalyze s defaultCfg closes) fr weights

/-- Recommendation tiers as the specification words them: closed at the lower
bound, evaluated in priority order (≥80, then ≥60, then ≥40, else negative). -/
def recTierSpec (score : ℚ) : String :=
  if 80 ≤ score then "strong_positive"
  else if 60 ≤ score then "positive"
  else if 40 ≤ score then "neutral"
  else "negative"

/-!  ### Market Sentiment Aggregator (market_sentiment.py, compute_fear_greed)

An index frame is modelled by its Close column (a `List ℚ`); the source
skips frames lacking a Close column exactly as it skips short frames, and
the column-presence test is not modelled separately.  -/

/-- Component breakdown of the Fear/Greed result (raw value and sub-score for
each of vix, rsi, momentum, rounded as in the source). -/
structure FGComponents where
  vixValue : ℚ
  vixScore : ℚ
  rsiValue : ℚ
  rsiScore : ℚ
  momValue : ℚ
  momScore : ℚ
deriving DecidableEq, Repr

/-- Result of compute_fear_greed. -/
structure FGResult where
  score : ℚ
  level : String
  components : FGComponents
deriving DecidableEq, Repr

/-- VIX component of compute_fear_greed: clamp(0, 100, 100 − (vix−10)·(90/30)). -/
def fgVixScore (vix : ℚ) : ℚ :=
  max 0 (min 100 (100 - (vix - 10) * (90 / 30)))

/-- Latest defined RSI(14) of each index with at least 20 bars (the RSI loop
of compute_fear_greed; frames that are short or have no defined RSI value
contribute nothing). -/
def fgRsiValues (idxs : List (List ℚ)) : List ℚ :=
  idxs.filterMap fun df =>
    if 20 ≤ df.length then ((rsiList df 14).filterMap id).getLast? else none

/-- Average RSI across contributing indices, defaulting to 50 when none
contribute (raw value, before clamping). -/
def fgAvgRsi (idxs : List (List ℚ)) : ℚ :=
  let vals := fgRsiValues idxs
  if vals.isEmpty then 50 else vals.sum / (vals.length : ℚ)

/-- RSI sub-score of compute_fear_greed: clamped average, 50 by default. -/
def fgRsiScore (idxs : List (List ℚ)) : ℚ :=
  if (fgRsiValues idxs).isEmpty then 50 else max 0 (min 100 (fgAvgRsi idxs))

/-- The 20-day return of one index frame in percent; Python float division raises
ZeroDivisionError when the close 20 bars back is zero. -/
def fgReturn20 (df : List ℚ) : Except PyError ℚ :=
  let denom := (df.get? (df.length - 20)).getD 0
  if denom = 0 then .error (.zeroDivisionError "float division by zero")
  else .ok ((df.getLastD 0 / denom - 1) * 100)

/-- Momentum loop of compute_fear_greed: the 20-day returns of every index
with at least 20 bars, failing if any contributing division hits a zero. -/
def fgMomentumValues (idxs : List (List ℚ)) : Except PyError (List ℚ) :=
  idxs.foldlM
    (fun acc df =>
      if 20 ≤ df.length then do
        let r ← fgReturn20 df
        pure (acc ++ [r])
      else pure acc)
    []

/-- Level label thresholds of compute_fear_greed. -/
def fgLevel (score : ℚ) : String :=
  if 80 ≤ score then "Extreme Greed"
  else if 60 ≤ score then "Greed"
  else if 40 ≤ score then "Neutral"
  else if 20 ≤ score then "Fear"
  else "Extreme Fear"

/-- Embedding of compute_fear_greed: weighted blend 0.4·vix + 0.3·rsi +
0.3·momentum, clamped, rounded to one decimal, with component breakdown. -/
def computeFearGreed (vix : ℚ) (idxs : List (List ℚ)) : Except PyError FGResult := do
  let vixScore := fgVixScore vix
  let avgRsi := fgAvgRsi idxs
  let rsiScore := fgRsiScore idxs
  let momVals ← fgMomentumValues idxs
  let avgMom := if momVals.isEmpty then 0 else momVals.sum / (momVals.length : ℚ)
  let momScore := if momVals.isEmpty then 50 else max 0 (min 100 (50 + avgMom * 4))
  let fg := pyRound (max 0 (min 100 (vixScore * 0.4 + rsiScore * 0.3 + momScore * 0.3))) 1
  pure ⟨fg, fgLevel fg,
    ⟨vix, pyRound vixScore 1, pyRound avgRsi 1, pyRound rsiScore 1,
     pyRound avgMom 2, pyRound momScore 1⟩⟩

/-!  ### Trend indicators (trend.py, _atr and _supertrend)

An OHLC frame is a list of (high, low, close) bars.  -/

/-- High column of a frame. -/
def highs (frame : List (ℚ × ℚ × ℚ)) : List ℚ := frame.map fun b => b.1

/-- Low column of a frame. -/
def lows (frame : List (ℚ × ℚ × ℚ)) : List ℚ := frame.map fun b => b.2.1

/-- Close column of a frame. -/
def closesOf (frame : List (ℚ × ℚ × ℚ)) : List ℚ := frame.map fun b => b.2.2

/-- True range at one index: max(high−low, |high−prevClose|, |low−prevClose|);
at index 0 the previous close is NaN and the row-wise max skips NaN, leaving
high−low. -/
def trList (frame : List (ℚ × ℚ × ℚ)) : List ℚ :=
  (List.range frame.length).map fun i =>
    let h := (highs frame).getD i 0
    let l := (lows frame).getD i 0
    match i, (closesOf frame).get? (i - 1) with
    | 0, _ => h - l
    | _ + 1, some pc => max (h - l) (max (|h - pc|) (|l - pc|))
    | _ + 1, none => h - l

/-- Embedding of _atr: Wilder-smoothed true range with min_periods=period. -/
def atrList (frame : List (ℚ × ℚ × ℚ)) (period : ℕ) : List (Option ℚ) :=
  wilderMasked (trList frame) period

/-- Basic upper band of _supertrend: (high+low)/2 + multiplier·ATR. -/
def stUpperBase (frame : List (ℚ × ℚ × ℚ)) (period : ℕ) (mult : ℚ) : List (Option ℚ) :=
  (List.range frame.length).map fun i =>
    (atIdx (atrList frame period) i).map fun a =>
      ((highs frame).getD i 0 + (lows frame).getD i 0) / 2 + mult * a

/-- Basic lower band of _supertrend: (high+low)/2 − multiplier·ATR. -/
def stLowerBase (frame : List (ℚ × ℚ × ℚ)) (period : ℕ) (mult : ℚ) : List (Option ℚ) :=
  (List.range frame.length).map fun i =>
    (atIdx (atrList frame period) i).map fun a =>
      ((highs frame).getD i 0 + (lows frame).getD i 0) / 2 - mult * a

/-- Per-index input of the _supertrend forward scan: original lower band,
original upper band, current close, previous close. -/
structure StInput where
  lb : Option ℚ
  ub : Option ℚ
  c : ℚ
  cPrev : ℚ
deriving Repr

/-- Carried state of the _supertrend forward scan: the band values stored at
the previous index (after any sticky-band adjustment) and the previous
supertrend value. -/
structure StState where
  prevLB : Option ℚ
  prevUB : Option ℚ
  prevST : Option ℚ
deriving Repr

/-- One iteration of the _supertrend loop body, returning the
(supertrend, direction) written at this index and the next state.  The NaN
guard mirrors the source's continue (bands stay as computed, supertrend
stays NaN, direction keeps its default 1); otherwise the sticky-band
adjustment runs, then the direction decision. -/
def stStep (st : StState) (inp : StInput) : (Option ℚ × ℤ) × StState :=
  if inp.lb.isNone || inp.ub.isNone then
    ((none, 1), ⟨inp.lb, inp.ub, none⟩)
  else
    let lbA := if pyGtB inp.lb st.prevLB || pyLtB (some inp.cPrev) st.prevLB then inp.lb else st.prevLB
    let ubA := if pyLtB inp.ub st.prevUB || pyGtB (some inp.cPrev) st.prevUB then inp.ub else st.prevUB
    let dSt : ℤ × Option ℚ :=
      if st.prevST.isNone then
        (if pyGtB (some inp.c) ubA then (1, lbA) else (-1, ubA))
      else if pyEqB st.prevST st.prevUB then
        (if pyGtB (some inp.c) ubA then (1, lbA) else (-1, ubA))
      else
        (if pyLtB (some inp.c) lbA then (-1, ubA) else (1, lbA))
    ((dSt.2, dSt.1), ⟨lbA, ubA, dSt.2⟩)

/-- The _supertrend forward scan over the inputs for indices 1..n−1. -/
def stLoop (st : StState) : List StInput → List (Option ℚ × ℤ)
  | [] => []
  | inp :: rest =>
    let out := stStep st inp
    out.1 :: stLoop out.2 rest

/-- Inputs for indices 1..n−1 of the _supertrend scan. -/
def stInputs (frame : List (ℚ × ℚ × ℚ)) (period : ℕ) (mult : ℚ) : List StInput :=
  (List.range (frame.length - 1)).map fun j =>
    ⟨atIdx (stLowerBase frame period mult) (j + 1),
     atIdx (stUpperBase frame period mult) (j + 1),
     (closesOf frame).getD (j + 1) 0,
     (closesOf frame).getD j 0⟩

/-- Embedding of _supertrend: the supertrend column (NaN-initialised) and the
direction column (default 1) after the forward scan; index 0 is never
visited by the loop. -/
def supertrendCols (frame : List (ℚ × ℚ × ℚ)) (period : ℕ) (mult : ℚ) :
    List (Option ℚ) × List ℤ :=
  match frame with
  | [] => ([], [])
  | _ :: _ =>
    let out := stLoop ⟨atIdx (stLowerBase frame period mult) 0,
                       atIdx (stUpperBase frame period mult) 0, none⟩
                (stInputs frame period mult)
    (none :: out.map Prod.fst, 1 :: out.map Prod.snd)

/-!  ### Infrastructure lemmas  -/

/-- Access lemma for the range-map representation of an aligned series. -/
theorem atIdx_rangeMap (f : ℕ → Option ℚ) (n i : ℕ) :
    atIdx ((List.range n).map f) i = if i < n then f i else none := by
  unfold atIdx
  rcases lt_or_le i n with h | h
  · rw [List.get?_map, List.get?_range h, if_pos h]
    rfl
  · rw [List.get?_eq_none.mpr, if_neg (not_lt.mpr h)]
    · rfl
    · simpa using h

theorem ewmGo_length (α prev : ℚ) (xs : List ℚ) : (ewmGo α prev xs).length = xs.length := by
  induction xs generalizing prev with
  | nil => rfl
  | cons y ys ih => simp [ewmGo, ih]

theorem ewmRaw_length (xs : List ℚ) (α : ℚ) : (ewmRaw xs α).length = xs.length := by
  cases xs with
  | nil => rfl
  | cons x rest => simp [ewmRaw, ewmGo_length]

theorem ewmGo_zero (α : ℚ) (n : ℕ) : ewmGo α 0 (List.replicate n 0) = List.replicate n 0 := by
  induction n with
  | zero => rfl
  | succ m ih => simp [List.replicate_succ, ewmGo, ih]

theorem ewmRaw_zero (α : ℚ) (n : ℕ) : ewmRaw (List.replicate n 0) α = List.replicate n 0 := by
  cases n with
  | zero => rfl
  | succ m => simp [List.replicate_succ, ewmRaw, ewmGo_zero]

theorem zipWith_consSelf_replicate (f : ℚ → ℚ → ℚ) (c : ℚ) (m : ℕ) :
    List.zipWith f (c :: List.replicate m c) (List.replicate m c) =
      List.replicate m (f c c) := by
  induction m with
  | zero => simp
  | succ k ih => simpa [List.replicate_succ] using ih

theorem losses_replicate (c : ℚ) (n : ℕ) :
    losses (List.replicate n c) = List.replicate n 0 := by
  cases n with
  | zero => rfl
  | succ m =>
    rw [List.replicate_succ]
    show 0 :: List.zipWith (fun prev cur => if cur - prev < 0 then -(cur - prev) else 0)
        (c :: List.replicate m c) (List.replicate m c) = List.replicate (m + 1) 0
    rw [zipWith_consSelf_replicate]
    simp [List.replicate_succ]

theorem gains_replicate (c : ℚ) (n : ℕ) :
    gains (List.replicate n c) = List.replicate n 0 := by
  cases n with
  | zero => rfl
  | succ m =>
    rw [List.replicate_succ]
    show 0 :: List.zipWith (fun prev cur => if 0 < cur - prev then cur - prev else 0)
        (c :: List.replicate m c) (List.replicate m c) = List.replicate (m + 1) 0
    rw [zipWith_consSelf_replicate]
    simp [List.replicate_succ]

theorem atIdx_wilderMasked_replicate_zero (len n i : ℕ) :
    atIdx (wilderMasked (List.replicate n 0) len) i =
      if len ≤ i + 1 ∧ i < n then some 0 else none := by
  unfold wilderMasked
  rw [show (List.replicate n (0:ℚ)).length = n from List.length_replicate n 0]
  rw [atIdx_rangeMap]
  rcases lt_or_le i n with h | h
  · rw [if_pos h]
    by_cases hm : len ≤ i + 1
    · rw [if_pos hm, if_pos ⟨hm, h⟩, ewmRaw_zero, List.get?_eq_get (by simpa using h)]
      simp
    · rw [if_neg hm, if_neg (by tauto)]
  · rw [if_neg (not_lt.mpr h), if_neg (by rintro ⟨-, hc⟩; exact absurd hc (not_lt.mpr h))]

theorem rsiList_replicate (c : ℚ) (n len : ℕ) :
    rsiList (List.replicate n c) len = List.replicate n none := by
  unfold rsiList
  apply List.eq_replicate.mpr
  constructor
  · simp
  · intro b hb
    rcases List.mem_map.mp hb with ⟨i, hi, hfi⟩
    rw [List.mem_range, List.length_replicate] at hi
    rw [← hfi]
    unfold avgLoss
    rw [losses_replicate, atIdx_wilderMasked_replicate_zero]
    by_cases hm : len ≤ i + 1
    · rw [if_pos ⟨hm, hi⟩]
      rcases hg : atIdx (avgGain (List.replicate n c) len) i with - | a
      · rfl
      · simp
    · rw [if_neg (by tauto)]
      rcases hg : atIdx (avgGain (List.replicate n c) len) i with - | a <;> rfl

theorem lastValue_replicate_none (n : ℕ) :
    lastValue (List.replicate n none) = none := by
  unfold lastValue
  rw [List.filterMap_eq_nil.mpr]
  · rfl
  · intro a ha
    rw [List.eq_of_mem_replicate ha]
    rfl

theorem lastValue_eq_none_iff (t : List (Option ℚ)) :
    lastValue t = none ↔ ∀ x ∈ t, x = none := by
  unfold lastValue
  constructor
  · intro h x hx
    by_cases he : (t.filterMap id).isEmpty
    · rcases x with - | v
      · rfl
      · exact absurd (List.filterMap_eq_nil.mp (List.isEmpty_iff_eq_nil.mp he) _ hx) (by simp)
    · simp [he] at h
  · intro h
    rw [if_pos]
    rw [List.isEmpty_iff_eq_nil]
    exact List.filterMap_eq_nil.mpr fun a ha => by rw [h a ha]; rfl

theorem pyRound_eq_self (q : ℚ) (n : ℕ) (z : ℤ) (h : q * 10 ^ n = (z : ℚ)) :
    pyRound q n = q := by
  have hz : roundHalfEven (q * 10 ^ n) = z := by
    unfold roundHalfEven
    rw [h, Int.floor_intCast]
    norm_num
  unfold pyRound
  rw [hz, eq_comm, eq_div_iff (by positivity : ((10:ℚ) ^ n) ≠ 0), h]

theorem pyRound_intCast (z : ℤ) (n : ℕ) : pyRound (z : ℚ) n = z := by
  refine pyRound_eq_self _ _ (z * 10 ^ n) ?_
  push_cast
  ring

/-- Literal-key form of the indicator dict under the default configuration. -/
theorem computeIndicators_default (s : ℚ → ℚ) (closes : List ℚ) :
    computeIndicators s defaultCfg closes =
      [("sma_5", lastValue (smaList closes 5)),
       ("sma_20", lastValue (smaList closes 20)),
       ("sma_60", lastValue (smaList closes 60)),
       ("sma_120", lastValue (smaList closes 120)),
       ("ema_12", lastValue ((emaList closes 12).map some)),
       ("ema_26", lastValue ((emaList closes 26).map some)),
       ("rsi", lastValue (rsiList closes 14)),
       ("macd", lastValue ((macdLine closes 12 26).map some)),
       ("macd_histogram", lastValue ((macdHistogram closes 12 26 9).map some)),
       ("macd_signal", lastValue ((macdSignalLine closes 12 26 9).map some)),
       ("bb_lower", lastValue (bbLowerList s closes 20 2)),
       ("bb_mid", lastValue (bbMidList closes 20)),
       ("bb_upper", lastValue (bbUpperList s closes 20 2))] := rfl

/-- The dict lookup of the rsi entry under the default configuration. -/
theorem pyGet_rsi_default (s : ℚ → ℚ) (closes : List ℚ) (dflt : Option ℚ) :
    pyGet (computeIndicators s defaultCfg closes) "rsi" dflt =
      lastValue (rsiList closes 14) := by
  rw [computeIndicators_default]
  simp [pyGet, List.lookup]

/-!  ### Claim C1  -/

/-- Claim C1 counterexample: an empty frame has fewer than 30 bars, yet
analyze raises AnalysisError instead of returning the neutral
insufficient_data result, so the claim fails as stated for the empty
series. -/
theorem C1_empty_frame_raises :
    techAnalyze ratSqrt defaultCfg [] = .error (.analysisError "No OHLCV data") := rfl

/-- Claim C1 (amended): whenever at least one and fewer than 30 bars are
supplied, analyze returns exactly score 50, the one-element signal list
[insufficient_data], and an empty indicator map; the zero-bar frame instead
raises AnalysisError. -/
theorem C1_insufficient_data (s : ℚ → ℚ) (closes : List ℚ) (hne : closes ≠ [])
    (hlen : closes.length < 30) :
    techAnalyze s defaultCfg closes = .ok ⟨50, [.insufficientData], []⟩ := by
  unfold techAnalyze
  rw [if_neg (by simp [List.isEmpty_iff, hne]), if_pos hlen]

/-- Claim C1 witness: the amended statement evaluated on a one-bar frame. -/
theorem C1_insufficient_data_witness :
    techAnalyze ratSqrt defaultCfg [100] = .ok ⟨50, [.insufficientData], []⟩ :=
  C1_insufficient_data ratSqrt [100] (by simp) (by simp)

/-!  ### Claim C2  -/

/-- Claim C2: the claim says the scorer never raises and degrades every
failure mode (including an all-NaN RSI on a constant series of 30 or more
bars) to a neutral score; the code instead raises TypeError there, because
the indicator dict carries None under "rsi" and _compute_score compares it
with 30.  This theorem evaluates the embedded code at the failing input:
a 30-bar constant-price series. -/
theorem C2_constant_series_type_error :
    techAnalyze ratSqrt defaultCfg (List.replicate 30 100) =
      .error (.typeError "unsupported comparison: NoneType and int") := by
  have hrsi : pyGet (computeIndicators ratSqrt defaultCfg (List.replicate 30 100))
      "rsi" (some 50) = none := by
    rw [pyGet_rsi_default, rsiList_replicate, lastValue_replicate_none]
  simp only [techAnalyze, computeScore, hrsi, List.isEmpty_replicate, List.length_replicate]
  norm_num

/-!  ### Claim C5  -/

/-- Wilder smoothing is undefined before len observations exist. -/
theorem atIdx_wilderMasked_early (xs : List ℚ) (len i : ℕ) (h : i + 1 < len) :
    atIdx (wilderMasked xs len) i = none := by
  unfold wilderMasked
  rw [atIdx_rangeMap]
  rcases lt_or_le i xs.length with hin | hin
  · rw [if_pos hin, if_neg (by omega)]
  · rw [if_neg (not_lt.mpr hin)]

/-- Claim C5: the RSI embedding is a total function (it is a Lean def on
every input series); whenever the Wilder-smoothed average loss is zero at an
index, the ratio RS is undefined and RSI is null there rather than a
division-by-zero error; and RSI is undefined until length observations
exist. -/
theorem C5_rsi_total (closes : List ℚ) (len : ℕ) (hlen : 0 < len) (i : ℕ) :
    (atIdx (avgLoss closes len) i = some 0 → atIdx (rsiList closes len) i = none)
    ∧ (i + 1 < len → atIdx (rsiList closes len) i = none) := by
  constructor
  · intro hz
    unfold rsiList
    rw [atIdx_rangeMap]
    rcases lt_or_le i closes.length with hin | hin
    · rw [if_pos hin, hz]
      rcases hg : atIdx (avgGain closes len) i with - | a
      · rfl
      · simp
    · rw [if_neg (not_lt.mpr hin)]
  · intro hearly
    unfold rsiList
    rw [atIdx_rangeMap]
    rcases lt_or_le i closes.length with hin | hin
    · rw [if_pos hin]
      unfold avgGain
      rw [atIdx_wilderMasked_early _ _ _ hearly]
    · rw [if_neg (not_lt.mpr hin)]

/-- Average loss of a constant series is zero once defined. -/
theorem avgLoss_replicate (c : ℚ) (n len i : ℕ) :
    atIdx (avgLoss (List.replicate n c) len) i =
      if len ≤ i + 1 ∧ i < n then some 0 else none := by
  unfold avgLoss
  rw [losses_replicate, atIdx_wilderMasked_replicate_zero]

/-- Claim C5 witness: on a 30-bar constant series the average loss at the
last index is a defined zero, RSI there is null, and RSI before 14
observations is null. -/
theorem C5_rsi_total_witness :
    atIdx (avgLoss (List.replicate 30 100) 14) 29 = some 0
    ∧ atIdx (rsiList (List.replicate 30 100) 14) 29 = none
    ∧ atIdx (rsiList (List.replicate 30 100) 14) 5 = none := by
  have hz : atIdx (avgLoss (List.replicate 30 (100:ℚ)) 14) 29 = some 0 := by
    rw [avgLoss_replicate]
    norm_num
  exact ⟨hz, (C5_rsi_total (List.replicate 30 100) 14 (by norm_num) 29).1 hz,
    (C5_rsi_total (List.replicate 30 100) 14 (by norm_num) 5).2 (by norm_num)⟩

/-!  ### Claim C8  -/

/-- Sample variance of a window is nonnegative. -/
theorem rollingVarAt_nonneg (xs : List ℚ) (len i : ℕ) (h : 2 ≤ len) :
    0 ≤ rollingVarAt xs len i := by
  unfold rollingVarAt
  apply div_nonneg
  · apply List.sum_nonneg
    intro x hx
    rcases List.mem_map.mp hx with ⟨y, -, hy⟩
    rw [← hy]
    positivity
  · have : (2:ℚ) ≤ (len : ℚ) := by exact_mod_cast h
    linarith

/-- The concrete square-root stand-in is nonnegative everywhere. -/
theorem ratSqrt_nonneg (x : ℚ) : 0 ≤ ratSqrt x := by
  unfold ratSqrt
  positivity

/-- Claim C8 (amended): for every series, window length, nonnegative width k
and index where the three Bollinger bands are defined, upper ≥ mid ≥ lower;
nonnegativity of the width (true of the analyzer's configured k = 2) is
needed, since the bands are mid ± k·std with std ≥ 0.  The square root may
be any function that is nonnegative on nonnegative inputs, which the float
sqrt is. -/
theorem C8_bollinger_order (s : ℚ → ℚ) (hs : ∀ x, 0 ≤ x → 0 ≤ s x)
    (xs : List ℚ) (len : ℕ) (k : ℚ) (hk : 0 ≤ k) (i : ℕ) (u m l : ℚ)
    (hu : atIdx (bbUpperList s xs len k) i = some u)
    (hm : atIdx (bbMidList xs len) i = some m)
    (hl : atIdx (bbLowerList s xs len k) i = some l) :
    l ≤ m ∧ m ≤ u := by
  unfold bbUpperList at hu
  unfold bbLowerList at hl
  unfold bbMidList at hm
  rw [atIdx_rangeMap] at hu hl
  rcases lt_or_le i xs.length with hin | hin
  · rw [if_pos hin] at hu hl
    rcases hsd : atIdx (rollingStdList s xs len) i with - | sd
    · rw [hm, hsd] at hu
      exact absurd hu (by simp)
    · rw [hm, hsd] at hu hl
      simp only [Option.some.injEq] at hu hl
      have hsd0 : 0 ≤ sd := by
        unfold rollingStdList at hsd
        rw [atIdx_rangeMap, if_pos hin] at hsd
        by_cases hc : len ≤ i + 1 ∧ 2 ≤ len
        · rw [if_pos hc] at hsd
          simp only [Option.some.injEq] at hsd
          rw [← hsd]
          exact hs _ (rollingVarAt_nonneg xs len i hc.2)
        · rw [if_neg hc] at hsd
          exact absurd hsd (by simp)
      have hks : 0 ≤ k * sd := mul_nonneg hk hsd0
      constructor
      · rw [← hl]; linarith
      · rw [← hu]; linarith
  · rw [if_neg (not_lt.mpr hin)] at hu
    exact absurd hu (by simp)

/-- Evaluation helper: the mid band of the three-bar example series. -/
theorem bbMid_example : atIdx (bbMidList [0, 2, 4] 3) 2 = some 2 := by
  unfold bbMidList
  norm_num [atIdx, smaList, windowAt, List.range_succ]

/-- Evaluation helper: the rolling standard deviation of the three-bar
example series (sample variance 4, square root 2). -/
theorem bbStd_example : atIdx (rollingStdList ratSqrt [0, 2, 4] 3) 2 = some 2 := by
  have h4 : natSqrt (Int.toNat 4) = 2 := by decide
  have hv : rollingVarAt [0, 2, 4] 3 2 = 4 := by norm_num [rollingVarAt, windowAt]
  unfold rollingStdList
  rw [show ([0, 2, 4] : List ℚ).length = 3 from rfl, atIdx_rangeMap, if_pos (by norm_num),
    if_pos (by norm_num), hv]
  rw [ratSqrt]
  norm_num [Rat.num_ofNat, Rat.den_ofNat, h4]

/-- Evaluation helper: upper band of the example series at width k. -/
theorem bbUpper_example (k : ℚ) :
    atIdx (bbUpperList ratSqrt [0, 2, 4] 3 k) 2 = some (2 + k * 2) := by
  have hm : atIdx (smaList [0, 2, 4] 3) 2 = some 2 := bbMid_example
  unfold bbUpperList
  rw [show ([0, 2, 4] : List ℚ).length = 3 from rfl, atIdx_rangeMap, if_pos (by norm_num),
    hm, bbStd_example]

/-- Evaluation helper: lower band of the example series at width k. -/
theorem bbLower_example (k : ℚ) :
    atIdx (bbLowerList ratSqrt [0, 2, 4] 3 k) 2 = some (2 - k * 2) := by
  have hm : atIdx (smaList [0, 2, 4] 3) 2 = some 2 := bbMid_example
  unfold bbLowerList
  rw [show ([0, 2, 4] : List ℚ).length = 3 from rfl, atIdx_rangeMap, if_pos (by norm_num),
    hm, bbStd_example]

/-- Claim C8 counterexample: with width k = −1 on the series [0, 2, 4] all
three bands are defined at index 2, but upper = 0 < 2 = mid, refuting the
claim's quantification over every width k. -/
theorem C8_negative_width_counterexample :
    atIdx (bbUpperList ratSqrt [0, 2, 4] 3 (-1)) 2 = some 0
    ∧ atIdx (bbMidList [0, 2, 4] 3) 2 = some 2
    ∧ atIdx (bbLowerList ratSqrt [0, 2, 4] 3 (-1)) 2 = some 4
    ∧ ¬ ((2 : ℚ) ≤ 0) := by
  refine ⟨?_, bbMid_example, ?_, by norm_num⟩
  · rw [bbUpper_example]
    norm_num
  · rw [bbLower_example]
    norm_num

/-- Claim C8 witness: the amended ordering evaluated at width 2 on the
example series, where lower = −2, mid = 2, upper = 6. -/
theorem C8_bollinger_order_witness : ((-2 : ℚ) ≤ 2 ∧ (2 : ℚ) ≤ 6) := by
  have hu : atIdx (bbUpperList ratSqrt [0, 2, 4] 3 2) 2 = some 6 := by
    rw [bbUpper_example]; norm_num
  have hl : atIdx (bbLowerList ratSqrt [0, 2, 4] 3 2) 2 = some (-2) := by
    rw [bbLower_example]; norm_num
  exact C8_bollinger_order ratSqrt (fun x _ => ratSqrt_nonneg x) [0, 2, 4] 3 2
    (by norm_num) 2 6 2 (-2) hu bbMid_example hl

/-!  ### Claim C3  -/

/-- Claim C3: for all technical and fundamental scores and configured
weights, the screener's composite equals round(clamp(0, 100,
t·w_tech + f·w_fund), 1), and the recommendation tiers are closed at the
lower bound and evaluated in priority order (≥80 strong_positive, ≥60
positive, ≥40 neutral, else negative), so 80.0 → strong_positive,
79.9 → positive, 60.0 → positive, 39.9 → negative. -/
theorem C3_composite_formula_and_tiers :
    (∀ (t f wt wf : ℚ) (sigs : List Signal) (inds : List (String × Option ℚ))
       (fd : List (String × ℚ)),
       (screenerAnalyzeCore (.ok ⟨t, sigs, inds⟩) (.ok ⟨f, fd⟩)
           [("technical", wt), ("fundamental", wf)]).score
         = pyRound (max 0 (min 100 (t * wt + f * wf))) 1
       ∧ (screenerAnalyzeCore (.ok ⟨t, sigs, inds⟩) (.ok ⟨f, fd⟩)
           [("technical", wt), ("fundamental", wf)]).recommendation
         = recTierSpec (pyRound (max 0 (min 100 (t * wt + f * wf))) 1))
    ∧ (∀ x : ℚ, classifyRecommendation x = recTierSpec x)
    ∧ classifyRecommendation 80 = "strong_positive"
    ∧ classifyRecommendation (79.9 : ℚ) = "positive"
    ∧ classifyRecommendation 60 = "positive"
    ∧ classifyRecommendation (39.9 : ℚ) = "negative" := by
  refine ⟨fun t f wt wf sigs inds fd => ?_, fun x => rfl, ?_, ?_, ?_, ?_⟩
  · constructor <;>
      simp [screenerAnalyzeCore, safeTechnicalR, safeFundamental, List.lookup, recTierSpec,
        classifyRecommendation]
  · norm_num [classifyRecommendation]
  · norm_num [classifyRecommendation]
  · norm_num [classifyRecommendation]
  · norm_num [classifyRecommendation]

/-!  ### Claim C9  -/

/-- Claim C9: the screener never propagates a sub-scorer failure — a raising
technical analyzer is replaced by score 50 with empty signals and
indicators, a raising fundamental analyzer by score 50 with empty data, and
the screener still returns a complete composite result built from the
neutral substitutes. -/
theorem C9_screener_isolates_failures (s : ℚ → ℚ) (closes : List ℚ)
    (e eFund : PyError) (wt wf : ℚ)
    (hTech : techAnalyze s defaultCfg closes = .error e) :
    safeTechnicalR (techAnalyze s defaultCfg closes) = ⟨50, [], []⟩
    ∧ safeFundamental (.error eFund) = (⟨50, []⟩ : FundResult)
    ∧ screenerAnalyze s closes (.error eFund) [("technical", wt), ("fundamental", wf)]
        = ⟨pyRound (max 0 (min 100 (50 * wt + 50 * wf))) 1, 50, 50, [],
           classifyRecommendation (pyRound (max 0 (min 100 (50 * wt + 50 * wf))) 1),
           [], []⟩ := by
  refine ⟨by rw [hTech]; rfl, rfl, ?_⟩
  unfold screenerAnalyze screenerAnalyzeCore
  rw [hTech]
  simp [safeTechnicalR, safeFundamental, List.lookup]

/-- Claim C9 witness: both sub-scorers fail (empty frame on the technical
side, a fetch error on the fundamental side) and the screener still returns
the complete neutral composite. -/
theorem C9_screener_isolates_failures_witness :
    screenerAnalyze ratSqrt [] (.error (.analysisError "fetch failed"))
      [("technical", 1/2), ("fundamental", 1/2)] = ⟨50, 50, 50, [], "neutral", [], []⟩ := by
  have h := (C9_screener_isolates_failures ratSqrt [] (.analysisError "No OHLCV data")
    (.analysisError "fetch failed") (1/2) (1/2) rfl).2.2
  rw [h]
  have h50 : pyRound (max 0 (min 100 ((50:ℚ) * (1/2) + 50 * (1/2)))) 1 = 50 := by
    rw [show max 0 (min 100 ((50:ℚ) * (1/2) + 50 * (1/2))) = 50 by norm_num]
    exact_mod_cast pyRound_intCast 50 1
  rw [h50]
  norm_num [classifyRecommendation]

/-- A replicate of NaN has no defined entries. -/
theorem filterMap_id_replicate_none (n : ℕ) :
    (List.replicate n (none : Option ℚ)).filterMap id = [] := by
  apply List.filterMap_eq_nil.mpr
  intro a ha
  rw [List.eq_of_mem_replicate ha]
  rfl

/-!  ### Claim C4  -/

/-- Specification-side momentum contributions: the 20-day returns of every
index with at least 20 bars, written with total division (it agrees with the
source loop whenever no contributing denominator is zero). -/
def fgMomValsT (idxs : List (List ℚ)) : List ℚ :=
  idxs.filterMap fun df =>
    if 20 ≤ df.length then
      some ((df.getLastD 0 / (df.get? (df.length - 20)).getD 0 - 1) * 100)
    else none

/-- Specification-side momentum sub-score: mapped mean return, 50 by default. -/
def fgMomScoreT (idxs : List (List ℚ)) : ℚ :=
  let vals := fgMomValsT idxs
  if vals.isEmpty then 50 else max 0 (min 100 (50 + vals.sum / (vals.length : ℚ) * 4))

/-- The source momentum loop computes exactly the total-division contributions
whenever no contributing index has a zero close 20 bars back. -/
theorem fgMomentumValues_eq (idxs : List (List ℚ))
    (hnz : ∀ df ∈ idxs, 20 ≤ df.length → (df.get? (df.length - 20)).getD 0 ≠ 0) :
    fgMomentumValues idxs = .ok (fgMomValsT idxs) := by
  suffices h : ∀ acc : List ℚ,
      idxs.foldlM
        (fun acc df =>
          if 20 ≤ df.length then do
            let r ← fgReturn20 df
            pure (acc ++ [r])
          else pure acc)
        acc = .ok (acc ++ fgMomValsT idxs) by
    simpa [fgMomentumValues] using h []
  induction idxs with
  | nil => intro acc; simp [fgMomValsT, pure, Except.pure]
  | cons df rest ih =>
    intro acc
    have hnzr : ∀ d ∈ rest, 20 ≤ d.length → (d.get? (d.length - 20)).getD 0 ≠ 0 :=
      fun d hd => hnz d (List.mem_cons_of_mem _ hd)
    rw [List.foldlM_cons]
    by_cases h20 : 20 ≤ df.length
    · have hd : fgReturn20 df = .ok ((df.getLastD 0 / (df.get? (df.length - 20)).getD 0 - 1) * 100) := by
        unfold fgReturn20
        rw [if_neg (hnz df (List.mem_cons_self df rest) h20)]
      rw [if_pos h20]
      show (fgReturn20 df >>= fun r => pure (acc ++ [r]) : Except PyError (List ℚ)) >>= _ = _
      rw [hd]
      show rest.foldlM _ (acc ++ [_]) = _
      rw [ih hnzr (acc ++ [_])]
      simp [fgMomValsT, h20]
    · rw [if_neg h20]
      show rest.foldlM _ acc = _
      rw [ih hnzr acc]
      simp [fgMomValsT, h20]

/-- Claim C4 (amended): provided every contributing index has a nonzero close
20 bars back (otherwise the source raises ZeroDivisionError), compute_fear_greed
returns score = round(clamp(0, 100, 0.4·vix_score + 0.3·rsi_score +
0.3·momentum_score), 1) with vix_score = clamp(0, 100, 100 − (vix−10)·3);
only indices with at least 20 bars contribute to the RSI and momentum
components, an empty contribution defaults that component to 50, and the
VIX=10 / three-flat-indices scenario yields 70.0 with level "Greed". -/
theorem C4_fear_greed (vix : ℚ) (idxs : List (List ℚ))
    (hnz : ∀ df ∈ idxs, 20 ≤ df.length → (df.get? (df.length - 20)).getD 0 ≠ 0) :
    (∃ r, computeFearGreed vix idxs = .ok r
       ∧ r.score = pyRound (max 0 (min 100
           (fgVixScore vix * 0.4 + fgRsiScore idxs * 0.3 + fgMomScoreT idxs * 0.3))) 1
       ∧ r.level = fgLevel r.score)
    ∧ fgVixScore vix = max 0 (min 100 (100 - (vix - 10) * 3))
    ∧ fgRsiScore [] = 50
    ∧ fgMomScoreT [] = 50
    ∧ (∀ short : List ℚ, short.length < 20 →
        computeFearGreed vix (idxs ++ [short]) = computeFearGreed vix idxs)
    ∧ computeFearGreed 10 (List.replicate 3 (List.replicate 20 100))
        = .ok ⟨70, "Greed", ⟨10, 100, 50, 50, 0, 50⟩⟩ := by
  refine ⟨?_, by unfold fgVixScore; norm_num, by simp [fgRsiScore, fgRsiValues],
    by simp [fgMomScoreT, fgMomValsT], ?_, ?_⟩
  · have hmom := fgMomentumValues_eq idxs hnz
    unfold computeFearGreed
    rw [hmom]
    simp only [Bind.bind, Except.bind, pure, Except.pure]
    refine ⟨_, rfl, ?_, rfl⟩
    by_cases he : (fgMomValsT idxs).isEmpty <;> simp [fgMomScoreT, he]
  · intro short hshort
    have h1 : fgRsiValues (idxs ++ [short]) = fgRsiValues idxs := by
      unfold fgRsiValues
      rw [List.filterMap_append]
      simp [not_le.mpr hshort]
    have h2 : fgMomentumValues (idxs ++ [short]) = fgMomentumValues idxs := by
      unfold fgMomentumValues
      rw [List.foldlM_append]
      simp [not_le.mpr hshort]
    have h3 : fgAvgRsi (idxs ++ [short]) = fgAvgRsi idxs := by
      unfold fgAvgRsi
      rw [h1]
    have h4 : fgRsiScore (idxs ++ [short]) = fgRsiScore idxs := by
      unfold fgRsiScore fgAvgRsi
      rw [h1]
    unfold computeFearGreed
    rw [h2, h3, h4]
  · have hnz3 : ∀ df ∈ List.replicate 3 (List.replicate 20 (100:ℚ)),
        20 ≤ df.length → (df.get? (df.length - 20)).getD 0 ≠ 0 := by
      intro df hdf hlen
      rw [List.eq_of_mem_replicate hdf]
      norm_num
    have hmom := fgMomentumValues_eq _ hnz3
    have hvals : fgMomValsT (List.replicate 3 (List.replicate 20 (100:ℚ))) = [0, 0, 0] := by
      unfold fgMomValsT
      have hlast : (List.replicate 20 (100:ℚ)).getLastD 0 = 100 := by
        rw [List.replicate_succ']
        simp
      rw [show List.replicate 3 (List.replicate 20 (100:ℚ)) =
        [List.replicate 20 100, List.replicate 20 100, List.replicate 20 100] from rfl]
      simp [List.filterMap_cons, hlast]
    have hrsiv : fgRsiValues (List.replicate 3 (List.replicate 20 (100:ℚ))) = [] := by
      unfold fgRsiValues
      rw [show List.replicate 3 (List.replicate 20 (100:ℚ)) =
        [List.replicate 20 100, List.replicate 20 100, List.replicate 20 100] from rfl]
      simp only [List.filterMap_cons, List.filterMap_nil, rsiList_replicate,
        filterMap_id_replicate_none]
      simp
    have hv100 : fgVixScore 10 = 100 := by unfold fgVixScore; norm_num
    have hr50 : fgRsiScore (List.replicate 3 (List.replicate 20 (100:ℚ))) = 50 := by
      unfold fgRsiScore
      rw [hrsiv]
      simp
    have ha50 : fgAvgRsi (List.replicate 3 (List.replicate 20 (100:ℚ))) = 50 := by
      unfold fgAvgRsi
      rw [hrsiv]
      simp
    have p70 : pyRound (70:ℚ) 1 = 70 := by exact_mod_cast pyRound_intCast 70 1
    have p100 : pyRound (100:ℚ) 1 = 100 := by exact_mod_cast pyRound_intCast 100 1
    have p50 : pyRound (50:ℚ) 1 = 50 := by exact_mod_cast pyRound_intCast 50 1
    have p0 : pyRound (0:ℚ) 2 = 0 := by exact_mod_cast pyRound_intCast 0 2
    unfold computeFearGreed
    rw [hmom, hvals]
    simp only [Bind.bind, Except.bind, pure, Except.pure, hv100, hr50, ha50]
    norm_num [fgLevel, p70, p100, p50, p0]

/-- Claim C4 counterexample: a 20-bar index whose close 20 bars back is zero
makes the momentum loop divide by zero, so compute_fear_greed raises
ZeroDivisionError instead of returning a score, refuting the claim's
quantification over every index-series map. -/
theorem C4_zero_close_counterexample :
    computeFearGreed 10 [0 :: List.replicate 19 100]
      = .error (.zeroDivisionError "float division by zero") := by
  have h : fgMomentumValues [0 :: List.replicate 19 (100:ℚ)]
      = .error (.zeroDivisionError "float division by zero") := by
    unfold fgMomentumValues fgReturn20
    simp [List.foldlM_cons, Bind.bind, Except.bind]
  unfold computeFearGreed
  rw [h]
  rfl

/-- Claim C4 witness: the amended statement applied to the concrete scenario
(VIX = 10, three flat 20-bar indices), whose hypothesis (nonzero close 20
bars back) holds; the scenario conjunct gives score 70.0, level "Greed". -/
theorem C4_fear_greed_witness :
    computeFearGreed 10 (List.replicate 3 (List.replicate 20 100))
      = .ok ⟨70, "Greed", ⟨10, 100, 50, 50, 0, 50⟩⟩ :=
  (C4_fear_greed 10 (List.replicate 3 (List.replicate 20 100)) (by
      intro df hdf hlen
      rw [List.eq_of_mem_replicate hdf]
      norm_num)).2.2.2.2.2

/-!  ### Claim C7  -/

/-- Undefinedness of Wilder smoothing: exactly before len observations or out
of range. -/
theorem atIdx_wilderMasked_none_iff (xs : List ℚ) (len i : ℕ) :
    atIdx (wilderMasked xs len) i = none ↔ (i + 1 < len ∨ xs.length ≤ i) := by
  unfold wilderMasked
  rw [atIdx_rangeMap]
  rcases lt_or_le i xs.length with hin | hin
  · rw [if_pos hin]
    by_cases hm : len ≤ i + 1
    · rw [if_pos hm]
      have : i < (ewmRaw xs (1 / (len : ℚ))).length := by rw [ewmRaw_length]; exact hin
      constructor
      · intro h
        exact absurd (List.get?_eq_none.mp h) (by omega)
      · intro h
        omega
    · simp [hm]
      omega
  · rw [if_neg (not_lt.mpr hin)]
    simp
    omega

/-- The true-range list has the frame's length. -/
theorem trList_length (frame : List (ℚ × ℚ × ℚ)) : (trList frame).length = frame.length := by
  unfold trList
  simp

/-- The basic lower band is undefined exactly where the ATR is. -/
theorem atIdx_stLowerBase_none_iff (frame : List (ℚ × ℚ × ℚ)) (period : ℕ) (mult : ℚ)
    (i : ℕ) :
    atIdx (stLowerBase frame period mult) i = none ↔ (i + 1 < period ∨ frame.length ≤ i) := by
  unfold stLowerBase
  rw [atIdx_rangeMap]
  rcases lt_or_le i frame.length with hin | hin
  · rw [if_pos hin, Option.map_eq_none']
    unfold atrList
    rw [atIdx_wilderMasked_none_iff, trList_length]
  · rw [if_neg (not_lt.mpr hin)]
    simp
    omega

/-- The basic upper band is undefined exactly where the ATR is. -/
theorem atIdx_stUpperBase_none_iff (frame : List (ℚ × ℚ × ℚ)) (period : ℕ) (mult : ℚ)
    (i : ℕ) :
    atIdx (stUpperBase frame period mult) i = none ↔ (i + 1 < period ∨ frame.length ≤ i) := by
  unfold stUpperBase
  rw [atIdx_rangeMap]
  rcases lt_or_le i frame.length with hin | hin
  · rw [if_pos hin, Option.map_eq_none']
    unfold atrList
    rw [atIdx_wilderMasked_none_iff, trList_length]
  · rw [if_neg (not_lt.mpr hin)]
    simp
    omega

/-- Invariant of the _supertrend forward scan: once the carried bands and
supertrend value are all undefined, they stay undefined forever — the sticky
band adjustment copies the undefined previous band over every freshly
defined band, so no real band decision is ever made; the direction written
is the default 1 exactly where the original bands are undefined and −1
elsewhere. -/
theorem stStep_from_none (inp : StInput) (hiff : inp.lb.isNone = inp.ub.isNone) :
    stStep ⟨none, none, none⟩ inp
      = ((none, if inp.lb.isNone then (1:ℤ) else -1), ⟨none, none, none⟩) := by
  rcases hlb : inp.lb with - | l
  · have hub : inp.ub = none := by
      rcases hub : inp.ub with - | u
      · rfl
      · rw [hlb, hub] at hiff
        simp at hiff
    unfold stStep
    rw [hlb, hub]
    simp
  · have hub : ∃ u, inp.ub = some u := by
      rcases hub : inp.ub with - | u
      · rw [hlb, hub] at hiff
        simp at hiff
      · exact ⟨u, rfl⟩
    rcases hub with ⟨u, hub⟩
    unfold stStep
    rw [hlb, hub]
    simp [pyGtB, pyLtB]

theorem stLoop_none (inputs : List StInput)
    (h : ∀ inp ∈ inputs, inp.lb.isNone = inp.ub.isNone) :
    stLoop ⟨none, none, none⟩ inputs
      = inputs.map fun inp => (none, if inp.lb.isNone then (1:ℤ) else -1) := by
  induction inputs with
  | nil => rfl
  | cons inp rest ih =>
    have hrest : ∀ x ∈ rest, x.lb.isNone = x.ub.isNone :=
      fun x hx => h x (List.mem_cons_of_mem _ hx)
    have hinp := h inp (List.mem_cons_self inp rest)
    show (stStep ⟨none, none, none⟩ inp).1
        :: stLoop (stStep ⟨none, none, none⟩ inp).2 rest = _
    rw [stStep_from_none inp hinp, List.map_cons, ih hrest]

/-- Claim C7 (amended): for every OHLC frame the supertrend column is
undefined at every index — with a period of at least 2 the ATR is undefined
at index 0, and the sticky-band adjustment then copies the undefined band
forward forever, so no real band decision is ever made; the direction column
is the default 1 at every index before period−1 and −1 from index period−1
on (the NaN-comparison fallback), not 1 until a first real decision. -/
theorem C7_supertrend_undefined (frame : List (ℚ × ℚ × ℚ)) (period : ℕ) (mult : ℚ)
    (hp : 2 ≤ period) (i : ℕ) (hi : i < frame.length) :
    (supertrendCols frame period mult).1.get? i = some none
    ∧ (supertrendCols frame period mult).2.get? i
        = some (if i + 1 < period then (1:ℤ) else -1) := by
  cases frame with
  | nil => simp at hi
  | cons hd tl =>
    have h0l : atIdx (stLowerBase (hd :: tl) period mult) 0 = none :=
      (atIdx_stLowerBase_none_iff _ _ _ 0).mpr (Or.inl (by omega))
    have h0u : atIdx (stUpperBase (hd :: tl) period mult) 0 = none :=
      (atIdx_stUpperBase_none_iff _ _ _ 0).mpr (Or.inl (by omega))
    have hiff : ∀ inp ∈ stInputs (hd :: tl) period mult, inp.lb.isNone = inp.ub.isNone := by
      intro inp hinp
      rcases List.mem_map.mp hinp with ⟨j, -, rfl⟩
      have hl := atIdx_stLowerBase_none_iff (hd :: tl) period mult (j + 1)
      have hu := atIdx_stUpperBase_none_iff (hd :: tl) period mult (j + 1)
      by_cases hc : (j + 1) + 1 < period ∨ (hd :: tl).length ≤ j + 1
      · show (atIdx (stLowerBase (hd :: tl) period mult) (j + 1)).isNone
          = (atIdx (stUpperBase (hd :: tl) period mult) (j + 1)).isNone
        rw [hl.mpr hc, hu.mpr hc]
      · show (atIdx (stLowerBase (hd :: tl) period mult) (j + 1)).isNone
          = (atIdx (stUpperBase (hd :: tl) period mult) (j + 1)).isNone
        rcases hlb : atIdx (stLowerBase (hd :: tl) period mult) (j + 1) with - | l
        · exact absurd (hl.mp hlb) hc
        · rcases hub : atIdx (stUpperBase (hd :: tl) period mult) (j + 1) with - | u
          · exact absurd (hu.mp hub) hc
          · rfl
    show ((supertrendCols (hd :: tl) period mult).1.get? i = some none) ∧ _
    unfold supertrendCols
    rw [h0l, h0u, stLoop_none _ hiff]
    cases i with
    | zero =>
      refine ⟨rfl, ?_⟩
      rw [if_pos (by omega)]
      rfl
    | succ j =>
      have hj : j < (hd :: tl).length - 1 := by
        simpa using Nat.lt_of_succ_lt_succ (by simpa using hi)
      have hget : (stInputs (hd :: tl) period mult).get? j
          = some ⟨atIdx (stLowerBase (hd :: tl) period mult) (j + 1),
                  atIdx (stUpperBase (hd :: tl) period mult) (j + 1),
                  (closesOf (hd :: tl)).getD (j + 1) 0,
                  (closesOf (hd :: tl)).getD j 0⟩ := by
        unfold stInputs
        rw [List.get?_map, List.get?_range hj]
        rfl
      constructor
      · show (List.map Prod.fst (List.map _ (stInputs (hd :: tl) period mult))).get? j
          = some none
        rw [List.get?_map, List.get?_map, hget]
        rfl
      · show (List.map Prod.snd (List.map _ (stInputs (hd :: tl) period mult))).get? j
          = some (if j + 1 + 1 < period then (1:ℤ) else -1)
        rw [List.get?_map, List.get?_map, hget]
        by_cases hc : j + 1 + 1 < period
        · rw [if_pos hc]
          have hn : atIdx (stLowerBase (hd :: tl) period mult) (j + 1) = none :=
            (atIdx_stLowerBase_none_iff _ _ _ _).mpr (Or.inl hc)
          simp [hn]
        · rw [if_neg hc]
          have hn : atIdx (stLowerBase (hd :: tl) period mult) (j + 1) ≠ none := by
            intro hcon
            rcases (atIdx_stLowerBase_none_iff _ _ _ _).mp hcon with h1 | h2
            · exact hc h1
            · omega
          rcases hlb : atIdx (stLowerBase (hd :: tl) period mult) (j + 1) with - | l
          · exact absurd hlb hn
          · simp [hlb]

/-- Claim C7 counterexample: on a two-bar OHLC frame (default period 10) the
supertrend value at index 1 is NaN, not the first defined value the claim
asserts. -/
theorem C7_index_one_undefined_counterexample :
    (supertrendCols [(1, 0, 0), (2, 1, 1)] 10 3).1.get? 1 = some none := rfl

/-- Claim C7 witness: the amended statement evaluated on a three-bar frame
with period 2 — supertrend stays undefined and the direction at index 2 is
−1. -/
theorem C7_supertrend_undefined_witness :
    (supertrendCols [(2, 1, 1), (2, 1, 1), (2, 1, 1)] 2 3).1.get? 2 = some none
    ∧ (supertrendCols [(2, 1, 1), (2, 1, 1), (2, 1, 1)] 2 3).2.get? 2 = some (-1) := by
  have h := C7_supertrend_undefined [(2, 1, 1), (2, 1, 1), (2, 1, 1)] 2 3
    (by norm_num) 2 (by norm_num)
  refine ⟨h.1, ?_⟩
  rw [h.2]
  norm_num

/-!  ### Claim C10  -/

/-- Specification-side reading of "the last non-NaN value": the first defined
entry scanning the series from the right. -/
def lastNonNaN (t : List (Option ℚ)) : Option ℚ :=
  t.reverse.findSome? id

/-- The last element of the dropna of a series is its last non-NaN entry. -/
theorem filterMap_getLast?_eq (t : List (Option ℚ)) :
    (t.filterMap id).getLast? = lastNonNaN t := by
  unfold lastNonNaN
  induction t using List.reverseRecOn with
  | nil => rfl
  | append_singleton t a ih =>
    rw [List.filterMap_append, List.reverse_append]
    rcases a with - | v
    · simpa using ih
    · simp

/-- Claim C10: every numeric entry of the IndicatorSet is the
_last_value-reduction of its indicator series (under the default
configuration each dict entry is exactly lastValue of the matching series),
and _last_value returns the last non-NaN value of the series rounded to 4
decimal places, being None exactly when the series has no defined value. -/
theorem C10_indicator_last_values (s : ℚ → ℚ) (closes : List ℚ) :
    computeIndicators s defaultCfg closes
      = [("sma_5", lastValue (smaList closes 5)),
         ("sma_20", lastValue (smaList closes 20)),
         ("sma_60", lastValue (smaList closes 60)),
         ("sma_120", lastValue (smaList closes 120)),
         ("ema_12", lastValue ((emaList closes 12).map some)),
         ("ema_26", lastValue ((emaList closes 26).map some)),
         ("rsi", lastValue (rsiList closes 14)),
         ("macd", lastValue ((macdLine closes 12 26).map some)),
         ("macd_histogram", lastValue ((macdHistogram closes 12 26 9).map some)),
         ("macd_signal", lastValue ((macdSignalLine closes 12 26 9).map some)),
         ("bb_lower", lastValue (bbLowerList s closes 20 2)),
         ("bb_mid", lastValue (bbMidList closes 20)),
         ("bb_upper", lastValue (bbUpperList s closes 20 2))]
    ∧ (∀ t : List (Option ℚ), lastValue t = (lastNonNaN t).map fun v => pyRound v 4)
    ∧ (∀ t : List (Option ℚ), lastValue t = none ↔ t.all Option.isNone = true) := by
  refine ⟨computeIndicators_default s closes, fun t => ?_, fun t => ?_⟩
  · unfold lastValue
    rcases hl : (t.filterMap id).getLast? with - | v
    · rw [if_pos (by simpa [List.isEmpty_iff, List.getLast?_eq_none_iff] using hl),
        ← filterMap_getLast?_eq, hl]
      rfl
    · rw [if_neg (by
        simp only [List.isEmpty_iff]
        intro hc
        rw [hc] at hl
        exact absurd hl (by simp)), ← filterMap_getLast?_eq, hl]
      rw [List.getLastD_eq_getLast?, hl]
      rfl
  · rw [lastValue_eq_none_iff]
    simp [List.all_eq_true, Option.isNone_iff_eq_none]

/-!  ### Claim C6  -/

/-- Number of golden-cross signals in a signal list. -/
def countGolden (l : List Signal) : ℕ :=
  l.countP fun sg => match sg with | .goldenCross _ _ => true | _ => false

/-- Classifier for the cross-block signals. -/
def isCross (sg : Signal) : Bool :=
  match sg with
  | .goldenCross _ _ => true
  | .deathCross _ _ => true
  | _ => false

/-- The RSI block emits no cross signals. -/
theorem isCross_false_rsiSignals (cfg : TechnicalConfig) (inds : List (String × Option ℚ)) :
    ∀ sg ∈ rsiSignals cfg inds, isCross sg = false := by
  unfold rsiSignals
  rcases h : pyGet inds "rsi" none with - | v
  · simp
  · intro sg hsg
    dsimp only at hsg
    split_ifs at hsg <;> simp at hsg <;> rw [hsg] <;> rfl

/-- The MACD block emits no cross signals. -/
theorem isCross_false_macdSignals (inds : List (String × Option ℚ)) :
    ∀ sg ∈ macdSignals inds, isCross sg = false := by
  unfold macdSignals
  rcases h1 : pyGet inds "macd" none with - | m
  · simp
  · rcases h2 : pyGet inds "macd_signal" none with - | sgn
    · simp
    · intro sg hsg
      dsimp only at hsg
      split_ifs at hsg <;> simp at hsg <;> rw [hsg] <;> rfl

/-- The Bollinger block emits no cross signals. -/
theorem isCross_false_bbSignals (closeLast : ℚ) (inds : List (String × Option ℚ)) :
    ∀ sg ∈ bbSignals closeLast inds, isCross sg = false := by
  unfold bbSignals
  intro sg hsg
  rcases List.mem_append.mp hsg with h | h
  · rcases h1 : pyGet inds "bb_upper" none with - | u <;> rw [h1] at h
    · simp at h
    · dsimp only at h
      split_ifs at h <;> simp at h
      rw [h]
      rfl
  · rcases h1 : pyGet inds "bb_lower" none with - | l <;> rw [h1] at h
    · simp at h
    · dsimp only at h
      split_ifs at h <;> simp at h
      rw [h]
      rfl

/-- Any member of a per-pair cross block is that pair's golden or death cross. -/
theorem mem_crossSignalsFor (closes : List ℚ) (inds : List (String × Option ℚ))
    (pr : ℕ × ℕ) (sg : Signal) (h : sg ∈ crossSignalsFor closes inds pr) :
    sg = Signal.goldenCross pr.1 pr.2 ∨ sg = Signal.deathCross pr.1 pr.2 := by
  unfold crossSignalsFor at h
  rcases h1 : pyGet inds ("sma_" ++ toString pr.1) none with - | cs <;> rw [h1] at h
  · simp at h
  rcases h2 : pyGet inds ("sma_" ++ toString pr.2) none with - | cl <;> rw [h2] at h
  · simp at h
  rcases h3 : prevSma closes pr.1 with - | ps <;> rw [h3] at h
  · simp at h
  rcases h4 : prevSma closes pr.2 with - | pl <;> rw [h4] at h
  · simp at h
  dsimp only at h
  split_ifs at h <;> simp at h <;> tauto

/-- A cross signal is in the detected list exactly when it is in the cross
block (the other blocks never emit cross signals). -/
theorem cross_mem_detectSignals_iff (cfg : TechnicalConfig) (closeLast : ℚ)
    (closes : List ℚ) (inds : List (String × Option ℚ)) (sg : Signal)
    (hsg : isCross sg = true) :
    sg ∈ detectSignals cfg closeLast closes inds ↔ sg ∈ crossSignals cfg closes inds := by
  unfold detectSignals
  simp only [List.mem_append]
  constructor
  · rintro (((h | h) | h) | h)
    · exact absurd (isCross_false_rsiSignals cfg inds sg h) (by rw [hsg]; simp)
    · exact absurd (isCross_false_macdSignals inds sg h) (by rw [hsg]; simp)
    · exact h
    · exact absurd (isCross_false_bbSignals closeLast inds sg h) (by rw [hsg]; simp)
  · intro h
    exact Or.inl (Or.inr h)

/-- The golden cross of a pair is emitted exactly on the flip from
previous short ≤ previous long to current (rounded) short > long. -/
theorem golden_mem_crossSignalsFor_iff (closes : List ℚ)
    (inds : List (String × Option ℚ)) (p q : ℕ) :
    Signal.goldenCross p q ∈ crossSignalsFor closes inds (p, q) ↔
      (∃ cs cl ps pl,
        pyGet inds ("sma_" ++ toString p) none = some cs
        ∧ pyGet inds ("sma_" ++ toString q) none = some cl
        ∧ prevSma closes p = some ps ∧ prevSma closes q = some pl
        ∧ ps ≤ pl ∧ cl < cs) := by
  unfold crossSignalsFor
  rcases h1 : pyGet inds ("sma_" ++ toString p) none with - | cs
  · simp [h1]
  rcases h2 : pyGet inds ("sma_" ++ toString q) none with - | cl
  · simp [h1, h2]
  rcases h3 : prevSma closes p with - | ps
  · simp [h1, h2, h3]
  rcases h4 : prevSma closes q with - | pl
  · simp [h1, h2, h3, h4]
  dsimp only
  split_ifs with hc1 hc2
  · simp only [List.mem_singleton]
    constructor
    · intro _
      exact ⟨cs, cl, ps, pl, rfl, rfl, rfl, rfl, hc1.1, hc1.2⟩
    · intro _
      trivial
  · simp only [List.mem_singleton]
    constructor
    · intro hcon
      exact absurd hcon (by simp)
    · rintro ⟨cs', cl', ps', pl', e1, e2, e3, e4, hle, hlt⟩
      simp only [Option.some.injEq] at e1 e2 e3 e4
      subst e1
      subst e2
      subst e3
      subst e4
      exact absurd ⟨hle, hlt⟩ hc1
  · simp only [List.not_mem_nil, false_iff]
    rintro ⟨cs', cl', ps', pl', e1, e2, e3, e4, hle, hlt⟩
    simp only [Option.some.injEq] at e1 e2 e3 e4
    subst e1
    subst e2
    subst e3
    subst e4
    exact absurd ⟨hle, hlt⟩ hc1

/-- The death cross of a pair is emitted exactly on the reverse flip. -/
theorem death_mem_crossSignalsFor_iff (closes : List ℚ)
    (inds : List (String × Option ℚ)) (p q : ℕ) :
    Signal.deathCross p q ∈ crossSignalsFor closes inds (p, q) ↔
      (∃ cs cl ps pl,
        pyGet inds ("sma_" ++ toString p) none = some cs
        ∧ pyGet inds ("sma_" ++ toString q) none = some cl
        ∧ prevSma closes p = some ps ∧ prevSma closes q = some pl
        ∧ ¬ (ps ≤ pl ∧ cl < cs) ∧ pl ≤ ps ∧ cs < cl) := by
  unfold crossSignalsFor
  rcases h1 : pyGet inds ("sma_" ++ toString p) none with - | cs
  · simp [h1]
  rcases h2 : pyGet inds ("sma_" ++ toString q) none with - | cl
  · simp [h1, h2]
  rcases h3 : prevSma closes p with - | ps
  · simp [h1, h2, h3]
  rcases h4 : prevSma closes q with - | pl
  · simp [h1, h2, h3, h4]
  dsimp only
  split_ifs with hc1 hc2
  · simp only [List.mem_singleton]
    constructor
    · intro hcon
      exact absurd hcon (by simp)
    · rintro ⟨cs', cl', ps', pl', e1, e2, e3, e4, hn, -⟩
      simp only [Option.some.injEq] at e1 e2 e3 e4
      subst e1
      subst e2
      subst e3
      subst e4
      exact absurd hc1 hn
  · simp only [List.mem_singleton]
    constructor
    · intro _
      exact ⟨cs, cl, ps, pl, rfl, rfl, rfl, rfl, hc1, hc2.1, hc2.2⟩
    · intro _
      trivial
  · simp only [List.not_mem_nil, false_iff]
    rintro ⟨cs', cl', ps', pl', e1, e2, e3, e4, hn, hge, hgt⟩
    simp only [Option.some.injEq] at e1 e2 e3 e4
    subst e1
    subst e2
    subst e3
    subst e4
    exact hc2 ⟨hge, hgt⟩

/-- Dropna of an SMA series: the windows at the indices where the window fits. -/
theorem filterMap_id_map_ite (l : List ℕ) (P : ℕ → Prop) [DecidablePred P] (g : ℕ → Option ℚ)
    (gv : ℕ → ℚ) (hg : ∀ i, g i = if P i then some (gv i) else none) :
    (l.map g).filterMap id = (l.filter fun i => decide (P i)).map gv := by
  induction l with
  | nil => rfl
  | cons a l ih =>
    by_cases h : P a
    · simp [hg a, h, ih]
    · simp [hg a, h, ih]

/-- The defined part of an SMA series, as windows over the filtered indices. -/
theorem smaList_valid (xs : List ℚ) (len : ℕ) :
    (smaList xs len).filterMap id
      = ((List.range xs.length).filter fun i => decide (len ≤ i + 1)).map
          fun i => (windowAt xs len i).sum / (len : ℚ) := by
  unfold smaList
  exact filterMap_id_map_ite _ _ _ _ fun i => rfl

/-- The steadily rising 40-bar series close_i = 100 + i of the claim's
golden-cross scenario. -/
def rising40 : List ℚ := [100, 101, 102, 103, 104, 105, 106, 107, 108, 109, 110, 111, 112, 113, 114, 115, 116, 117, 118, 119, 120, 121, 122, 123, 124, 125, 126, 127, 128, 129, 130, 131, 132, 133, 134, 135, 136, 137, 138, 139]

/-- Latest SMA(5) of the rising series: mean of the last five closes. -/
theorem rising40_sma5_last : lastValue (smaList rising40 5) = some 137 := by
  unfold lastValue
  rw [smaList_valid, show rising40.length = 40 from rfl,
    show (List.range 40).filter (fun i => decide (5 ≤ i + 1)) = [4, 5, 6, 7, 8, 9, 10, 11, 12, 13, 14, 15, 16, 17, 18, 19, 20, 21, 22, 23, 24, 25, 26, 27, 28, 29, 30, 31, 32, 33, 34, 35, 36, 37, 38, 39] from by decide,
    show ([4, 5, 6, 7, 8, 9, 10, 11, 12, 13, 14, 15, 16, 17, 18, 19, 20, 21, 22, 23, 24, 25, 26, 27, 28, 29, 30, 31, 32, 33, 34, 35, 36, 37, 38, 39] : List ℕ) = [4, 5, 6, 7, 8, 9, 10, 11, 12, 13, 14, 15, 16, 17, 18, 19, 20, 21, 22, 23, 24, 25, 26, 27, 28, 29, 30, 31, 32, 33, 34, 35, 36, 37, 38] ++ [39] from rfl, List.map_append]
  simp only [List.map_cons, List.map_nil, List.getLastD_concat]
  rw [if_neg (by simp)]
  rw [show windowAt rising40 5 39 = [135, 136, 137, 138, 139] from rfl]
  have h137 : pyRound (([135, 136, 137, 138, 139] : List ℚ).sum / ((5:ℕ) : ℚ)) 4 = 137 := by
    rw [show (([135, 136, 137, 138, 139] : List ℚ).sum / ((5:ℕ) : ℚ)) = (137 : ℚ) by
      norm_num [List.sum_cons]]
    rw [pyRound_eq_self 137 4 1370000 (by norm_num)]
  rw [h137]

/-- Latest SMA(20) of the rising series: mean of the last twenty closes. -/
theorem rising40_sma20_last : lastValue (smaList rising40 20) = some (259 / 2) := by
  unfold lastValue
  rw [smaList_valid, show rising40.length = 40 from rfl,
    show (List.range 40).filter (fun i => decide (20 ≤ i + 1)) = [19, 20, 21, 22, 23, 24, 25, 26, 27, 28, 29, 30, 31, 32, 33, 34, 35, 36, 37, 38, 39] from by decide,
    show ([19, 20, 21, 22, 23, 24, 25, 26, 27, 28, 29, 30, 31, 32, 33, 34, 35, 36, 37, 38, 39] : List ℕ) = [19, 20, 21, 22, 23, 24, 25, 26, 27, 28, 29, 30, 31, 32, 33, 34, 35, 36, 37, 38] ++ [39] from rfl, List.map_append]
  simp only [List.map_cons, List.map_nil, List.getLastD_concat]
  rw [if_neg (by simp)]
  rw [show windowAt rising40 20 39 = [120, 121, 122, 123, 124, 125, 126, 127, 128, 129, 130, 131, 132, 133, 134, 135, 136, 137, 138, 139] from rfl]
  have hv : pyRound (([120, 121, 122, 123, 124, 125, 126, 127, 128, 129, 130, 131, 132, 133, 134, 135, 136, 137, 138, 139] : List ℚ).sum / ((20:ℕ) : ℚ)) 4 = 259 / 2 := by
    rw [show (([120, 121, 122, 123, 124, 125, 126, 127, 128, 129, 130, 131, 132, 133, 134, 135, 136, 137, 138, 139] : List ℚ).sum / ((20:ℕ) : ℚ)) = ((259 : ℚ) / 2) by
      norm_num [List.sum_cons]]
    rw [pyRound_eq_self (259 / 2) 4 1295000 (by norm_num)]
  rw [hv]

/-- SMA(60) of a 40-bar series has no defined value. -/
theorem rising40_sma60_last : lastValue (smaList rising40 60) = none := by
  unfold lastValue
  rw [smaList_valid, show rising40.length = 40 from rfl,
    show (List.range 40).filter (fun i => decide (60 ≤ i + 1)) = [] from by decide]
  rfl

/-- Previous-bar SMA(5) of the rising series. -/
theorem rising40_prev5 : prevSma rising40 5 = some 136 := by
  unfold prevSma
  dsimp only
  rw [smaList_valid, show rising40.length = 40 from rfl,
    show (List.range 40).filter (fun i => decide (5 ≤ i + 1)) = [4, 5, 6, 7, 8, 9, 10, 11, 12, 13, 14, 15, 16, 17, 18, 19, 20, 21, 22, 23, 24, 25, 26, 27, 28, 29, 30, 31, 32, 33, 34, 35, 36, 37, 38, 39] from by decide]
  have hlen : (([4, 5, 6, 7, 8, 9, 10, 11, 12, 13, 14, 15, 16, 17, 18, 19, 20, 21, 22, 23, 24, 25, 26, 27, 28, 29, 30, 31, 32, 33, 34, 35, 36, 37, 38, 39] : List ℕ).map fun i => (windowAt rising40 5 i).sum / ((5:ℕ) : ℚ)).length
      = 36 := by simp
  rw [hlen, if_pos (by norm_num), show (36 - 2 : ℕ) = 34 from rfl, List.get?_map]
  simp only [List.get?_cons_succ, List.get?_cons_zero, Option.map_some']
  rw [show windowAt rising40 5 38 = [134, 135, 136, 137, 138] from rfl]
  norm_num [List.sum_cons]

/-- Previous-bar SMA(20) of the rising series. -/
theorem rising40_prev20 : prevSma rising40 20 = some (257 / 2) := by
  unfold prevSma
  dsimp only
  rw [smaList_valid, show rising40.length = 40 from rfl,
    show (List.range 40).filter (fun i => decide (20 ≤ i + 1)) = [19, 20, 21, 22, 23, 24, 25, 26, 27, 28, 29, 30, 31, 32, 33, 34, 35, 36, 37, 38, 39] from by decide]
  have hlen : (([19, 20, 21, 22, 23, 24, 25, 26, 27, 28, 29, 30, 31, 32, 33, 34, 35, 36, 37, 38, 39] : List ℕ).map fun i => (windowAt rising40 20 i).sum / ((20:ℕ) : ℚ)).length
      = 21 := by simp
  rw [hlen, if_pos (by norm_num), show (21 - 2 : ℕ) = 19 from rfl, List.get?_map]
  simp only [List.get?_cons_succ, List.get?_cons_zero, Option.map_some']
  rw [show windowAt rising40 20 38 = [119, 120, 121, 122, 123, 124, 125, 126, 127, 128, 129, 130, 131, 132, 133, 134, 135, 136, 137, 138] from rfl]
  norm_num [List.sum_cons]

/-- Lookup of the sma_5 entry under the default configuration. -/
theorem pyGet_sma5_default (s : ℚ → ℚ) (closes : List ℚ) (dflt : Option ℚ) :
    pyGet (computeIndicators s defaultCfg closes) "sma_5" dflt
      = lastValue (smaList closes 5) := by
  rw [computeIndicators_default]
  simp [pyGet, List.lookup]

/-- Lookup of the sma_20 entry under the default configuration. -/
theorem pyGet_sma20_default (s : ℚ → ℚ) (closes : List ℚ) (dflt : Option ℚ) :
    pyGet (computeIndicators s defaultCfg closes) "sma_20" dflt
      = lastValue (smaList closes 20) := by
  rw [computeIndicators_default]
  simp [pyGet, List.lookup]

/-- Lookup of the sma_60 entry under the default configuration. -/
theorem pyGet_sma60_default (s : ℚ → ℚ) (closes : List ℚ) (dflt : Option ℚ) :
    pyGet (computeIndicators s defaultCfg closes) "sma_60" dflt
      = lastValue (smaList closes 60) := by
  rw [computeIndicators_default]
  simp [pyGet, List.lookup]

/-- A cross signal that is not of the second configured pair is detected
exactly when the first pair's block emits it. -/
theorem mem_detect_iff_first (closeLast : ℚ) (closes : List ℚ)
    (inds : List (String × Option ℚ)) (sg : Signal) (hsg : isCross sg = true)
    (hne1 : sg ≠ Signal.goldenCross 20 60) (hne2 : sg ≠ Signal.deathCross 20 60) :
    sg ∈ detectSignals defaultCfg closeLast closes inds
      ↔ sg ∈ crossSignalsFor closes inds (5, 20) := by
  rw [cross_mem_detectSignals_iff _ _ _ _ _ hsg]
  show sg ∈ crossSignalsFor closes inds (5, 20)
    ++ (crossSignalsFor closes inds (20, 60) ++ []) ↔ _
  rw [List.append_nil, List.mem_append]
  constructor
  · rintro (h | h)
    · exact h
    · rcases mem_crossSignalsFor closes inds (20, 60) sg h with h2 | h2
      · exact absurd h2 hne1
      · exact absurd h2 hne2
  · exact Or.inl

/-- A cross signal that is not of the first configured pair is detected
exactly when the second pair's block emits it. -/
theorem mem_detect_iff_second (closeLast : ℚ) (closes : List ℚ)
    (inds : List (String × Option ℚ)) (sg : Signal) (hsg : isCross sg = true)
    (hne1 : sg ≠ Signal.goldenCross 5 20) (hne2 : sg ≠ Signal.deathCross 5 20) :
    sg ∈ detectSignals defaultCfg closeLast closes inds
      ↔ sg ∈ crossSignalsFor closes inds (20, 60) := by
  rw [cross_mem_detectSignals_iff _ _ _ _ _ hsg]
  show sg ∈ crossSignalsFor closes inds (5, 20)
    ++ (crossSignalsFor closes inds (20, 60) ++ []) ↔ _
  rw [List.append_nil, List.mem_append]
  constructor
  · rintro (h | h)
    · rcases mem_crossSignalsFor closes inds (5, 20) sg h with h2 | h2
      · exact absurd h2 hne1
      · exact absurd h2 hne2
    · exact h
  · exact Or.inr

/-- On the rising series, the (5, 20) cross block is empty: the previous
short SMA already exceeds the previous long SMA, so no flip is detected. -/
theorem crossSignalsFor_rising_first :
    crossSignalsFor rising40 (computeIndicators ratSqrt defaultCfg rising40) (5, 20)
      = [] := by
  unfold crossSignalsFor
  rw [show ("sma_" ++ toString (5, 20).1) = "sma_5" from rfl,
    show ("sma_" ++ toString (5, 20).2) = "sma_20" from rfl,
    pyGet_sma5_default, pyGet_sma20_default, rising40_sma5_last, rising40_sma20_last]
  dsimp only
  rw [rising40_prev5, rising40_prev20]
  dsimp only
  rw [if_neg (by norm_num), if_neg (by norm_num)]

/-- On the rising series, the (20, 60) cross block is empty: there is no
SMA(60) value on 40 bars. -/
theorem crossSignalsFor_rising_second :
    crossSignalsFor rising40 (computeIndicators ratSqrt defaultCfg rising40) (20, 60)
      = [] := by
  unfold crossSignalsFor
  rw [show ("sma_" ++ toString (20, 60).1) = "sma_20" from rfl,
    show ("sma_" ++ toString (20, 60).2) = "sma_60" from rfl,
    pyGet_sma20_default, pyGet_sma60_default, rising40_sma20_last, rising40_sma60_last]

/-- A list without cross signals has golden-cross count zero. -/
theorem countGolden_eq_zero (l : List Signal) (h : ∀ sg ∈ l, isCross sg = false) :
    countGolden l = 0 := by
  unfold countGolden
  rw [List.countP_eq_zero]
  intro sg hsg
  have := h sg hsg
  cases sg <;> simp_all [isCross]

/-- Golden-cross count distributes over append. -/
theorem countGolden_append (a b : List Signal) :
    countGolden (a ++ b) = countGolden a + countGolden b :=
  List.countP_append _ _ _

/-- On the rising series no golden cross is detected at all. -/
theorem countGolden_detect_rising :
    countGolden (detectSignals defaultCfg (rising40.getLastD 0) rising40
      (computeIndicators ratSqrt defaultCfg rising40)) = 0 := by
  unfold detectSignals
  rw [countGolden_append, countGolden_append, countGolden_append]
  rw [countGolden_eq_zero _ (isCross_false_rsiSignals _ _),
    countGolden_eq_zero _ (isCross_false_macdSignals _),
    countGolden_eq_zero _ (isCross_false_bbSignals _ _)]
  have hc : crossSignals defaultCfg rising40 (computeIndicators ratSqrt defaultCfg rising40)
      = [] := by
    show crossSignalsFor _ _ (5, 20) ++ (crossSignalsFor _ _ (20, 60) ++ []) = []
    rw [crossSignalsFor_rising_first, crossSignalsFor_rising_second]
    rfl
  rw [hc]
  rfl

/-- Claim C6 (amended): for each configured golden-cross pair, given the
current (4-decimal-rounded) SMA dict values and both previous-bar SMA values
exist, the Golden cross signal is appended exactly when prev_short ≤
prev_long and current short > current long, and the Death cross exactly on
the reverse flip; on the steadily rising 40-bar series close_i = 100+i the
golden-cross signal never fires — the short SMA already exceeds the long SMA
at the first bar where both are defined, so no flip ever occurs (rather than
firing exactly once, as claimed). -/
theorem C6_cross_signal_characterisation (s : ℚ → ℚ) (closes : List ℚ) (closeLast : ℚ) :
    (∀ p q : ℕ, (p, q) ∈ defaultCfg.goldenCrossPairs →
      ((Signal.goldenCross p q ∈ detectSignals defaultCfg closeLast closes
          (computeIndicators s defaultCfg closes)) ↔
        (∃ cs cl ps pl, lastValue (smaList closes p) = some cs
          ∧ lastValue (smaList closes q) = some cl
          ∧ prevSma closes p = some ps ∧ prevSma closes q = some pl
          ∧ ps ≤ pl ∧ cl < cs))
      ∧ ((Signal.deathCross p q ∈ detectSignals defaultCfg closeLast closes
          (computeIndicators s defaultCfg closes)) ↔
        (∃ cs cl ps pl, lastValue (smaList closes p) = some cs
          ∧ lastValue (smaList closes q) = some cl
          ∧ prevSma closes p = some ps ∧ prevSma closes q = some pl
          ∧ ¬ (ps ≤ pl ∧ cl < cs) ∧ pl ≤ ps ∧ cs < cl)))
    ∧ countGolden (detectSignals defaultCfg (rising40.getLastD 0) rising40
        (computeIndicators ratSqrt defaultCfg rising40)) = 0 := by
  constructor
  · intro p q hpq
    have hpq2 : (p = 5 ∧ q = 20) ∨ (p = 20 ∧ q = 60) := by
      simpa [defaultCfg, Prod.ext_iff] using hpq
    rcases hpq2 with ⟨hp, hq⟩ | ⟨hp, hq⟩ <;> subst hp <;> subst hq
    · constructor
      · rw [mem_detect_iff_first closeLast closes _ (Signal.goldenCross 5 20) rfl
            (by simp) (by simp),
          golden_mem_crossSignalsFor_iff,
          show ("sma_" ++ toString (5:ℕ)) = "sma_5" from rfl,
          show ("sma_" ++ toString (20:ℕ)) = "sma_20" from rfl,
          pyGet_sma5_default, pyGet_sma20_default]
      · rw [mem_detect_iff_first closeLast closes _ (Signal.deathCross 5 20) rfl
            (by simp) (by simp),
          death_mem_crossSignalsFor_iff,
          show ("sma_" ++ toString (5:ℕ)) = "sma_5" from rfl,
          show ("sma_" ++ toString (20:ℕ)) = "sma_20" from rfl,
          pyGet_sma5_default, pyGet_sma20_default]
    · constructor
      · rw [mem_detect_iff_second closeLast closes _ (Signal.goldenCross 20 60) rfl
            (by simp) (by simp),
          golden_mem_crossSignalsFor_iff,
          show ("sma_" ++ toString (20:ℕ)) = "sma_20" from rfl,
          show ("sma_" ++ toString (60:ℕ)) = "sma_60" from rfl,
          pyGet_sma20_default, pyGet_sma60_default]
      · rw [mem_detect_iff_second closeLast closes _ (Signal.deathCross 20 60) rfl
            (by simp) (by simp),
          death_mem_crossSignalsFor_iff,
          show ("sma_" ++ toString (20:ℕ)) = "sma_20" from rfl,
          show ("sma_" ++ toString (60:ℕ)) = "sma_60" from rfl,
          pyGet_sma20_default, pyGet_sma60_default]
  · exact countGolden_detect_rising

/-- Claim C6 counterexample: on the steadily rising series close_i = 100+i
the golden-cross signal fires zero times, not exactly once — the short SMA
exceeds the long SMA from the first bar where both are defined, so the
required flip never happens. -/
theorem C6_rising_no_golden_counterexample :
    countGolden (detectSignals defaultCfg (rising40.getLastD 0) rising40
      (computeIndicators ratSqrt defaultCfg rising40)) ≠ 1 := by
  rw [countGolden_detect_rising]
  norm_num

/-- Claim C6 witness: the amended characterisation applied to the rising
series shows the (5, 20) golden cross is absent there, since the previous
short SMA (136) is not ≤ the previous long SMA (128.5). -/
theorem C6_cross_signal_characterisation_witness :
    ¬ (Signal.goldenCross 5 20 ∈ detectSignals defaultCfg (rising40.getLastD 0) rising40
        (computeIndicators ratSqrt defaultCfg rising40)) := by
  intro hmem
  rcases ((C6_cross_signal_characterisation ratSqrt rising40 (rising40.getLastD 0)).1
      5 20 (by simp [defaultCfg])).1.mp hmem with ⟨cs, cl, ps, pl, e1, e2, e3, e4, hle, hlt⟩
  rw [rising40_prev5] at e3
  rw [rising40_prev20] at e4
  simp only [Option.some.injEq] at e3 e4
  rw [← e3, ← e4] at hle
  norm_num at hle
